import Mathlib

/-!
Verification development for the streaming acquisition accumulator and
trajectory-correction engine of the python-ismrmrd-server reconstruction
scripts.  The Python sources `pulseq_prot.py`, `bart_pulseq_spiral_dream.py`
and `bart_pics_pulseq.py` are embedded shallowly below: numpy arrays become
functions out of natural-number indices together with explicit length data,
machine floats become exact rationals, reals or complex numbers, in-place
mutation becomes explicit state passing, and Python exceptions become
`Option`/`Except` results.  Functions of the repository that live outside the
provided sources (the helpers of `reco_helper.py`) are modelled from the
specification and marked as such in their doc comments.
-/

/-! ## Generic numpy-style helpers -/

/-- The unit complex exponential with frequency d/n, the basic factor
exp(2 pi i d / n) of the numpy FFT convention used by grad_pred. -/
noncomputable def unitExp (n : ℕ) (d : ℤ) : ℂ :=
  Complex.exp (2 * Real.pi * Complex.I * d / n)

/-- numpy fft of one row of n samples: X_k = sum_m x_m exp(-2 pi i m k / n). -/
noncomputable def npFFT (n : ℕ) (x : ℕ → ℂ) : ℕ → ℂ :=
  fun k => ∑ m ∈ Finset.range n, x m * unitExp n (-(m * k))

/-- numpy ifft of one row of n samples: x_m = (1/n) sum_k X_k exp(2 pi i k m / n). -/
noncomputable def npIFFT (n : ℕ) (x : ℕ → ℂ) : ℕ → ℂ :=
  fun m => (n : ℂ)⁻¹ * ∑ k ∈ Finset.range n, x k * unitExp n (k * m)

/-- numpy ifftshift along an axis of length n: np.roll by -(n // 2). -/
def npIfftshift {β : Type} (n : ℕ) (x : ℕ → β) : ℕ → β :=
  fun i => x ((i + n / 2) % n)

/-- numpy fftshift along an axis of length n: np.roll by n // 2. -/
def npFftshift {β : Type} (n : ℕ) (x : ℕ → β) : ℕ → β :=
  fun i => x ((i + (n - n / 2)) % n)

/-- numpy one-dimensional linear interpolation np.interp, with sample points
given as a list of (coordinate, value) pairs with increasing coordinates;
queries left of the first point return the first value, queries right of the
last point return the last value.  Modelled from the spec: intp_axis of
reco_helper.py (not under src/) interpolates data onto a new sampling raster
along an axis; it wraps np.interp. -/
noncomputable def np_interp {V : Type} [AddCommGroup V] [Module ℚ V] (x : ℚ) :
    List (ℚ × V) → V
  | [] => 0
  | [(_, f0)] => f0
  | (x0, f0) :: (x1, f1) :: rest =>
    if x ≤ x0 then f0
    else if x ≤ x1 then f0 + ((x - x0) / (x1 - x0)) • (f1 - f0)
    else np_interp x ((x1, f1) :: rest)

/-- In-place update of the last element of a Python list. -/
def updateLast {β : Type} (f : β → β) : List β → List β
  | [] => []
  | [a] => [f a]
  | a :: rest => a :: updateLast f rest

/-! ## Data model of pulseq_prot.py -/

/-- ISMRMRD encoding counters of one acquisition. -/
structure EncIdx where
  step1 : ℕ
  step2 : ℕ
  slice : ℕ
  contrast : ℕ
  phase : ℕ
  average : ℕ
  repetition : ℕ
  setIdx : ℕ
  segment : ℕ
deriving DecidableEq

/-- One acquisition of the ISMRMRD protocol file as read by insert_acq and
calc_traj: flags, encoding counters, direction cosines, and the stored
trajectory/gradient array traj of shape [trajSamples, trajDims]. -/
structure ProtAcq where
  idx : EncIdx
  read_dir : ℕ → ℚ
  phase_dir : ℕ → ℚ
  slice_dir : ℕ → ℚ
  lastInSlice : Bool
  lastInRep : Bool
  isNoise : Bool
  isPhaseCorr : Bool
  isDummy : Bool
  isParaCalib : Bool
  trajSamples : ℕ
  trajDims : ℕ
  traj : ℕ → ℕ → ℚ

/-- The dataset acquisition mutated by insert_acq: geometry and flags, the
channels-by-samples data array, and the [samples, trajDims] trajectory array
(real-valued, since the computed trajectory is written into it). -/
structure DsetAcq where
  idx : EncIdx
  read_dir : ℕ → ℚ
  phase_dir : ℕ → ℚ
  slice_dir : ℕ → ℚ
  lastInSlice : Bool
  lastInRep : Bool
  isNoise : Bool
  isPhaseCorr : Bool
  isDummy : Bool
  isParaCalib : Bool
  number_of_samples : ℕ
  active_channels : ℕ
  trajDims : ℕ
  data : ℕ → ℕ → ℚ
  traj : ℕ → ℕ → ℝ

/-- The slice of the protocol header read by insert_acq and calc_traj:
reconSpace field of view (x component, mm), the dwell-time user parameter
(microseconds), the gradient-delay user parameter (seconds), the encoded z
matrix size, and the effective number of segments
(encodingLimits.segment.maximum + 1, with the userParameterDouble[2] float
fallback; it is kept rational to cover both). -/
structure ProtHdr where
  fov_x : ℚ
  dwell_us : ℚ
  grad_shift : ℚ
  matrix_z : ℕ
  nseg : ℚ

/-- Modelled from the spec: calc_rotmat of reco_helper.py (not under src/)
builds the rotation matrix between logical gradient axes and device axes
from the direction cosines; here the three direction vectors are stored as
the matrix columns. -/
def rotmat_of (rd pd sd : ℕ → ℚ) : ℕ → ℕ → ℚ :=
  fun i j => if j = 0 then rd i else if j = 1 then pd i else sd i

/-- calc_rotmat applied to a protocol acquisition. -/
def calc_rotmat (acq : ProtAcq) : ℕ → ℕ → ℚ :=
  rotmat_of acq.read_dir acq.phase_dir acq.slice_dir

/-- Modelled from the spec: gcs_to_dcs of reco_helper.py (not under src/)
rotates per-axis waveforms from the logical gradient system into the device
system by applying the rotation matrix. -/
def gcs_to_dcs (g : ℕ → ℕ → ℚ) (R : ℕ → ℕ → ℚ) : ℕ → ℕ → ℚ :=
  fun d t => ∑ i ∈ Finset.range 3, R d i * g i t

/-- Modelled from the spec: dcs_to_gcs of reco_helper.py (not under src/)
applies the inverse (transposed) rotation, here to the complex-valued
predicted gradient rows. -/
noncomputable def dcs_to_gcs (g : ℕ → ℕ → ℂ) (R : ℕ → ℕ → ℚ) : ℕ → ℕ → ℂ :=
  fun d t => ∑ i ∈ Finset.range 3, (R i d : ℂ) * g i t

/-! ## grad_pred and calc_traj (pulseq_prot.py) -/

/-- Result of the sample-count adjustment at the head of grad_pred: the
sample count at which the FFT stage runs, the adjusted gradient and impulse
response, and whether the interpolation warning was emitted. -/
structure GirfResize where
  nfft : ℕ
  grad : ℕ → ℕ → ℚ
  girf : ℕ → ℕ → ℕ → ℂ
  warned : Bool

/-- np.linspace(0, hi, num) as a function of the point index. -/
def linspace (hi : ℚ) (num : ℕ) : ℕ → ℚ :=
  fun t => if num ≤ 1 then 0 else hi * t / ((num : ℚ) - 1)

/-- The sample-count adjustment of grad_pred (pulseq_prot.py lines 326-333):
if the impulse response has more samples than the gradient, the gradient is
zero-filled up to the response length; if the gradient has more samples, the
impulse response is linearly resampled onto the gradient sample count, with
a warning. -/
noncomputable def grad_pred_resize (grad_sampl girf_sampl : ℕ)
    (grad : ℕ → ℕ → ℚ) (girf : ℕ → ℕ → ℕ → ℂ) : GirfResize :=
  if girf_sampl > grad_sampl then
    { nfft := girf_sampl
      grad := fun d t => if t < grad_sampl then grad d t else 0
      girf := girf
      warned := false }
  else if grad_sampl > girf_sampl then
    { nfft := grad_sampl
      grad := grad
      girf := fun i d t => np_interp (linspace (girf_sampl : ℚ) grad_sampl t)
        ((List.range girf_sampl).map fun u => (linspace (girf_sampl : ℚ) girf_sampl u, girf i d u))
      warned := true }
  else { nfft := grad_sampl, grad := grad, girf := girf, warned := false }

/-- grad_pred (pulseq_prot.py): predicts the played-out gradient from the
nominal gradient by frequency-domain multiplication with the measured
impulse response.  The gradient has 3 spatial rows of grad_sampl samples;
girf i d t has 3 input axes i, 4 output axes d (index 0 is the zeroth-order
k0 term) and girf_sampl samples, already in frequency space.  Rows of the
result are meaningful for t < grad_sampl (the code truncates to
pred_grad[:, :grad_sampl]; downstream consumers only read those samples). -/
noncomputable def grad_pred (grad_sampl girf_sampl : ℕ) (grad : ℕ → ℕ → ℚ)
    (girf : ℕ → ℕ → ℕ → ℂ) : ℕ → ℕ → ℂ :=
  let rs := grad_pred_resize grad_sampl girf_sampl grad girf
  let gradF : ℕ → ℕ → ℂ := fun i =>
    npFftshift rs.nfft (npFFT rs.nfft (npIfftshift rs.nfft (fun t => (rs.grad i t : ℂ))))
  let mult : ℕ → ℕ → ℂ := fun d t => ∑ i ∈ Finset.range 3, gradF i t * rs.girf i d t
  fun d => npFftshift rs.nfft (npIFFT rs.nfft (npIfftshift rs.nfft (mult d)))

/-- Gradient raster time of calc_traj, 10e-6 s. -/
def dt_grad : ℚ := 1 / 100000

/-- Skope raster time of calc_traj, 1e-6 s. -/
def dt_skope : ℚ := 1 / 1000000

/-- Gyromagnetic ratio of calc_traj, 42.577e6 Hz/T. -/
def gammabar : ℚ := 42577000

/-- The three outputs of calc_traj, indexed [sample, axis] as after the
final swapaxes. -/
structure TrajResult where
  pred : ℕ → ℕ → ℝ
  base : ℕ → ℕ → ℝ
  k0 : ℕ → ℝ

/-- calc_traj (pulseq_prot.py): computes the GIRF-predicted trajectory, the
uncorrected base trajectory and the zeroth-order phase from the gradient
stored in the protocol acquisition, and interpolates all three onto the ADC
raster of ncol samples.  The impulse response and its sample count are
parameters (the code loads them from the dependency folder).  Output values
are meaningful for sample indices below ncol. -/
noncomputable def calc_traj (girf_sampl : ℕ) (girf : ℕ → ℕ → ℕ → ℂ)
    (acq : ProtAcq) (hdr : ProtHdr) (_ncol : ℕ) : TrajResult :=
  let m := acq.trajSamples
  let dims := acq.trajDims
  let plen := m + 20
  -- grad = swapaxes(acq.traj) padded with 10 zero samples on both ends; a
  -- zero z-row is appended when the stored gradient is two-dimensional
  let grad3 : ℕ → ℕ → ℚ := fun d t =>
    if d < dims then (if 10 ≤ t ∧ t < 10 + m then acq.traj (t - 10) d else 0) else 0
  let rotmat := calc_rotmat acq
  let dwelltime := hdr.dwell_us / 1000000
  let gradshift := hdr.grad_shift - 10 * dt_grad
  let adctime : ℕ → ℚ := fun j => dwelltime * ((j : ℚ) + 1/2)
  -- the half-raster cumsum correction of line 300 is already added here
  let gradtime : ℕ → ℚ := fun t => dt_grad * t + gradshift + dt_grad / 2 - dt_skope / 2
  let grad_phys := gcs_to_dcs grad3 rotmat
  let pred_all := grad_pred plen girf_sampl grad_phys girf
  let pred_gcs := dcs_to_gcs (fun d t => pred_all (d + 1) t) rotmat
  let k0_pre : ℕ → ℝ := fun t =>
    (∑ u ∈ Finset.range (t + 1), (pred_all 0 u).re) * (dt_grad : ℝ) * (gammabar : ℝ) *
      (2 * Real.pi)
  let pred_pre : ℕ → ℕ → ℝ := fun d t =>
    ((∑ u ∈ Finset.range (t + 1), (pred_gcs d u).re) * (dt_grad : ℝ) * (gammabar : ℝ)) *
      ((hdr.fov_x : ℝ) / 1000)
  let base_pre : ℕ → ℕ → ℚ := fun d t =>
    ((∑ u ∈ Finset.range (t + 1), grad3 d u) * dt_grad * gammabar) * (hdr.fov_x / 1000)
  let kz : ℤ := (acq.idx.step2 : ℤ) - (hdr.matrix_z / 2 : ℕ)
  let pred_pre2 : ℕ → ℕ → ℝ := fun d t =>
    if dims = 2 ∧ d = 2 then (kz : ℝ) else pred_pre d t
  { pred := fun j d => np_interp (adctime j)
      ((List.range plen).map fun t => (gradtime t, pred_pre2 d t))
    base := fun j d => np_interp (adctime j)
      ((List.range plen).map fun t => (gradtime t, ((base_pre d t : ℚ) : ℝ)))
    k0 := fun j => np_interp (adctime j)
      ((List.range plen).map fun t => (gradtime t, k0_pre t)) }

/-- The identity impulse response: unit response of every spatial output
axis to its own input axis, zero response into the zeroth-order term, flat
over all frequencies (zero delay). -/
def identity_girf : ℕ → ℕ → ℕ → ℂ :=
  fun i d _ => if d = i + 1 then 1 else 0

/-- Largest entry of prot_acq.traj[:, :3] (0 for an empty array; the only
consumer compares the value with 1, and the clamp at 0 never changes that
comparison). -/
def protTrajMax (acq : ProtAcq) : ℚ :=
  ((List.range acq.trajSamples).map fun t =>
    ((List.range (min 3 acq.trajDims)).map fun d => acq.traj t d).foldr max 0).foldr max 0

/-- insert_acq (pulseq_prot.py): copies geometry, encoding counters and
flags from the protocol acquisition onto the dataset acquisition; noise,
phase-correction, dummy and calibration records return after flagging.  For
non-Cartesian segment-0 acquisitions the record is resized to the full
readout length (raising once the full sample count exceeds the uint16
maximum) and the reconstruction trajectory is installed, either copied from
the protocol (when a full-length absolute trajectory is stored there) or
computed with calc_traj.  The result pairs the Python outcome (returned
base trajectory, or the raised ValueError) with the final state of the
mutated dataset acquisition. -/
noncomputable def insert_acq (girf_sampl : ℕ) (girf : ℕ → ℕ → ℕ → ℂ)
    (prot_acq : ProtAcq) (dset0 : DsetAcq) (hdr : ProtHdr) (noncartesian : Bool) :
    Except String (Option (ℕ → ℕ → ℝ)) × DsetAcq :=
  let d1 : DsetAcq := { dset0 with
    phase_dir := prot_acq.phase_dir
    read_dir := prot_acq.read_dir
    slice_dir := prot_acq.slice_dir
    idx := prot_acq.idx
    lastInSlice := dset0.lastInSlice || prot_acq.lastInSlice
    lastInRep := dset0.lastInRep || prot_acq.lastInRep }
  if prot_acq.isNoise then (.ok none, { d1 with isNoise := true })
  else if prot_acq.isPhaseCorr then (.ok none, { d1 with isPhaseCorr := true })
  else if prot_acq.isDummy then (.ok none, { d1 with isDummy := true })
  else if prot_acq.isParaCalib then (.ok none, { d1 with isParaCalib := true })
  else if noncartesian && d1.idx.segment == 0 then
    let nsamples := d1.number_of_samples
    let nsamples_full : ℤ := ⌊(nsamples : ℚ) * hdr.nseg + 1/2⌋
    if nsamples_full > 65535 then
      (.error "The number of samples exceed the maximum allowed number of 65535 (uint16 maximum).",
        d1)
    else
      let nf := nsamples_full.toNat
      let useProt := prot_acq.trajSamples == nf && decide (protTrajMax prot_acq > 1)
      let tr := calc_traj girf_sampl girf prot_acq hdr nf
      let reco_trj : ℕ → ℕ → ℝ :=
        if useProt then fun t d => if d < 3 then ((prot_acq.traj t d : ℚ) : ℝ) else 0 else tr.pred
      let base_trj : ℕ → ℕ → ℝ :=
        if useProt then fun t d => if d < 3 then ((prot_acq.traj t d : ℚ) : ℝ) else 0 else tr.base
      (.ok (some base_trj), { d1 with
        number_of_samples := nf
        trajDims := 5
        data := fun c j => if j < nsamples then d1.data c j else 0
        traj := fun t c =>
          if c < 3 then reco_trj t c
          else if c = 4 ∧ useProt = false then tr.k0 t else 0 })
  else (.ok none, d1)

/-! ## sort_into_kspace (bart_pulseq_spiral_dream.py) -/

/-- The metadata fields around sort_into_kspace of
bart_pulseq_spiral_dream.py: receiver channel count and the encoded matrix
sizes (matrixSize.y is not read by that function; it is carried here because
the specification speaks about it). -/
structure KMeta where
  nc : ℕ
  msx : ℕ
  msy : ℕ
  msz : ℕ

/-- The fields of one Cartesian acquisition used by sort_into_kspace:
encoding steps and the channels-by-columns data array with its shape. -/
structure CartAcq where
  enc1 : ℕ
  enc2 : ℕ
  ncol : ℕ
  nchan : ℕ
  data : ℕ → ℕ → ℚ

/-- Maximum kspace_encode_step_1 of a group (the loop of lines 562-574). -/
def enc1_max_of (group : List CartAcq) : ℕ :=
  (group.map fun a => a.enc1).foldr max 0

/-- Maximum kspace_encode_step_2 of a group. -/
def enc2_max_of (group : List CartAcq) : ℕ :=
  (group.map fun a => a.enc2).foldr max 0

/-- The effective (possibly recentered) grid address of one acquisition as a
pair of Python integers: with zero-filling around the center the encoding
steps are shifted by cy - cenc1 and cz - cenc2, which may be negative. -/
def effAddr (meta : KMeta) (group : List CartAcq) (zf : Bool) (a : CartAcq) : ℤ × ℤ :=
  if zf then
    ((a.enc1 : ℤ) + (meta.msx / 2 : ℕ) - ((enc1_max_of group + 1) / 2 : ℕ),
     (a.enc2 : ℤ) + (meta.msz / 2 : ℕ) - ((enc2_max_of group + 1) / 2 : ℕ))
  else ((a.enc1 : ℤ), (a.enc2 : ℤ))

/-- numpy semantics of a possibly negative index into an axis of length n:
a negative index counts from the end of the axis. -/
def wrapIdx (n : ℕ) (i : ℤ) : ℤ := if i < 0 then i + n else i

/-- The wrapped grid cell an acquisition is accumulated into. -/
def cellOf (meta : KMeta) (group : List CartAcq) (zf : Bool) (a : CartAcq) : ℤ × ℤ :=
  (wrapIdx meta.msx (effAddr meta group zf a).1, wrapIdx meta.msz (effAddr meta group zf a).2)

/-- The k-space accumulation sum of the sort_into_kspace loop; the grid is
indexed [enc1, enc2, channel, column].  Each acquisition adds its (possibly
prewhitened) data into the centered column band of its cell.  Column indices
follow the slice(cx - ccol, cx + ccol) of the code under the shape-match
requirement of the numpy assignment (ncol even and at most nx). -/
def kspace_sum (meta : KMeta) (group0 : List CartAcq) (zf : Bool)
    (dataOf : CartAcq → ℕ → ℕ → ℚ) : List CartAcq → ℤ × ℤ → ℕ → ℕ → ℚ
  | [] => fun _ _ _ => 0
  | a :: rest => fun cell c x =>
    kspace_sum meta group0 zf dataOf rest cell c x +
      (if cell = cellOf meta group0 zf a ∧
          meta.msx - a.ncol / 2 ≤ x ∧ x < meta.msx + a.ncol / 2
       then dataOf a c (x - (meta.msx - a.ncol / 2)) else 0)

/-- The per-cell hit counter of sort_into_kspace; its dtype is np.uint16, so
every increment wraps modulo 2^16. -/
def kspace_cnt (meta : KMeta) (group0 : List CartAcq) (zf : Bool) :
    List CartAcq → ℤ × ℤ → ℕ
  | [] => fun _ => 0
  | a :: rest => fun cell =>
    let prev := kspace_cnt meta group0 zf rest cell
    if cell = cellOf meta group0 zf a then (prev + 1) % 65536 else prev

/-- The data of a record after the optional prewhitening of the
sort_into_kspace loop. -/
def pwData (pw : Option ((ℕ → ℕ → ℚ) → ℕ → ℕ → ℚ)) (a : CartAcq) : ℕ → ℕ → ℚ :=
  match pw with
  | none => a.data
  | some f => f a.data

/-- A dense k-space array with its numpy shape. -/
structure KOut where
  shape : List ℕ
  val : ℕ → ℕ → ℕ → ℕ → ℚ

/-- sort_into_kspace (bart_pulseq_spiral_dream.py lines 558-618): allocates
a [ny, nz, nc, nx] grid with nx = 2 * matrixSize.x, ny = matrixSize.x and
nz = matrixSize.z, accumulates every record of the group additively into the
grid cell of its (possibly recentered) encoding steps while counting hits,
divides each cell by max(1, hits), and transposes to [nx, ny, nz, nc].  The
optional pw transform models apply_prewhitening with the streams dmtx. -/
def sort_into_kspace (meta : KMeta) (group : List CartAcq)
    (pw : Option ((ℕ → ℕ → ℚ) → ℕ → ℕ → ℚ)) (zf : Bool) : KOut :=
  let ks := kspace_sum meta group zf (pwData pw) group
  let cnt := kspace_cnt meta group zf group
  { shape := [2 * meta.msx, meta.msx, meta.msz, meta.nc]
    val := fun x y z c => ks ((y : ℤ), (z : ℤ)) c x / ((max 1 (cnt ((y : ℤ), (z : ℤ))) : ℕ) : ℚ) }

/-! ## The acquisition routers (bart_pulseq_spiral_dream.py, bart_pics_pulseq.py) -/

/-- One routed acquisition record as the process loops see it (after
insert_acq ran on the item; baseTrjRet is what insert_acq returned for it).
The data payload type and the base-trajectory type are parameters. -/
structure RtRec (α τ : Type) where
  isNoise : Bool
  isPhaseCorr : Bool
  isDummy : Bool
  isParaCalib : Bool
  lastInSlice : Bool
  lastInRep : Bool
  slice : ℕ
  contrast : ℕ
  segment : ℕ
  numSamples : ℕ
  nChannels : ℕ
  data : ℕ → ℕ → α
  traj : ℕ → ℕ → ℚ
  position : ℕ → ℚ
  read_dir : ℕ → ℚ
  phase_dir : ℕ → ℚ
  slice_dir : ℕ → ℚ
  baseTrjRet : Option τ

/-- np.concatenate of the data arrays of a record list along the sample
axis; sample indices beyond the total give none. -/
def concatData {α τ : Type} : List (RtRec α τ) → ℕ → ℕ → Option α
  | [] => fun _ _ => none
  | r :: rest => fun c j =>
    if j < r.numSamples then some (r.data c j) else concatData rest c (j - r.numSamples)

/-- The external collaborators the routers call: calculate_prewhitening and
process_acs (reco_helper.py / BART, outside src/), and the FOV-shift
reapplication applied to a finished multi-segment readout. -/
structure RtPs (α δ σ τ : Type) where
  calcPrewhitening : (ℕ → ℕ → Option α) → δ
  processAcs : List (RtRec α τ) → Option δ → σ
  reapply : (ℕ → ℕ → α) → (ℕ → ℕ → ℚ) → Option τ → (ℕ → ℚ) → ℕ × ℕ → ℕ → ℕ → α

/-- The configuration snapshot the spiral-dream router reads from the
metadata at stream start. -/
structure RtCfg where
  nSlc : ℕ
  nContr : ℕ
  nSegments : ℕ
  res : ℕ → ℚ
  matrSz : ℕ × ℕ

/-- The mutable state of the spiral-dream process loop: the per-contrast,
per-slice acquisition buffers, the noise and calibration buffers, the cached
sensitivity maps, the one-shot decorrelation matrix, and the Python locals
pred_trj / shift / base_trj that survive between loop iterations. -/
structure RtState (α δ σ τ : Type) where
  acqGroup : ℕ → ℕ → List (RtRec α τ)
  noiseGroup : List (RtRec α τ)
  acsGroup : ℕ → List (RtRec α τ)
  sensmaps : ℕ → Option σ
  dmtx : Option δ
  predTrj : Option (ℕ → ℕ → ℚ)
  shiftV : Option (ℕ → ℚ)
  baseTrj : Option τ

/-- Modelled from the spec: pcs_to_gcs of reco_helper.py (not under src/)
rotates a position vector from the patient coordinate system into the
logical gradient system. -/
def pcs_to_gcs (v : ℕ → ℚ) (R : ℕ → ℕ → ℚ) : ℕ → ℚ :=
  fun i => ∑ j ∈ Finset.range 3, R i j * v j

/-- The per-record FOV shift of the spiral-dream router (line 161): the
rotated record position divided elementwise by the voxel size. -/
def recShift {α τ : Type} (cfg : RtCfg) (r : RtRec α τ) : ℕ → ℚ :=
  fun i => pcs_to_gcs r.position (rotmat_of r.read_dir r.phase_dir r.slice_dir) i / cfg.res i

/-- The update of the loop-carried base trajectory from the insert_acq
return value (lines 110-112): only a non-None return replaces it. -/
def updBase {τ : Type} (old upd : Option τ) : Option τ :=
  match upd with
  | some b => some b
  | none => old

/-- The number of slices holding a sensitivity map (line 146). -/
def sensCount {σ : Type} (nSlc : ℕ) (sm : ℕ → Option σ) : ℕ :=
  ((List.range nSlc).filter fun i => (sm i).isSome).length

/-- The sensitivity-map duplication step (bart_pulseq_spiral_dream.py lines
145-153): when some but not all slices hold a map, neighbouring maps are
copied with a parity chosen by the slice count.  Copying from a slice whose
map is None is the AttributeError crash of None.copy(), modelled as none. -/
def sensFill {σ : Type} (nSlc : ℕ) (sm : ℕ → Option σ) : Option (ℕ → Option σ) :=
  if sensCount nSlc sm ≠ nSlc ∧ sensCount nSlc sm ≠ 0 then
    if nSlc % 2 = 0 then
      if (List.range nSlc).all fun i => !(i % 2 == 0 && decide (i + 1 < nSlc)) || (sm (i + 1)).isSome then
        some fun i => if i % 2 = 0 ∧ i + 1 < nSlc then sm (i + 1) else sm i
      else none
    else
      if (List.range nSlc).all fun i => !(i % 2 == 1) || (sm (i - 1)).isSome then
        some fun i => if i % 2 = 1 ∧ i < nSlc then sm (i - 1) else sm i
      else none
  else some sm

/-- The in-place write of a segment payload into an accumulated readout
entry (lines 163-166): the record data lands in the same channel rows at
columns [segment * numSamples, (segment + 1) * numSamples); all other
columns keep their previous values. -/
def segWrite {α τ : Type} (r : RtRec α τ) (e : RtRec α τ) : RtRec α τ :=
  { e with data := fun c j =>
      if r.segment * r.numSamples ≤ j ∧ j < (r.segment + 1) * r.numSamples then
        r.data c (j - r.segment * r.numSamples)
      else e.data c j }

/-- The segment-handling phase of the spiral-dream router (lines 155-170):
segment 0 opens a new logical readout and records the predicted trajectory
and the FOV shift; a later segment writes its payload into the most recent
readout via segWrite; the final segment reapplies the FOV shift to the
reassembled readout.  none models the Python crashes (indexing an empty
group, or the locals pred_trj / shift being unbound). -/
def segGroupUpdate {α δ σ τ : Type} (cfg : RtCfg) (ps : RtPs α δ σ τ)
    (g : List (RtRec α τ)) (pt : Option (ℕ → ℕ → ℚ)) (sv : Option (ℕ → ℚ))
    (bt : Option τ) (r : RtRec α τ) :
    Option (List (RtRec α τ) × Option (ℕ → ℕ → ℚ) × Option (ℕ → ℚ)) :=
  let first : Option (List (RtRec α τ) × Option (ℕ → ℕ → ℚ) × Option (ℕ → ℚ)) :=
    if r.segment = 0 then
      some (g ++ [r], some r.traj, some (recShift cfg r))
    else
      match g with
      | [] => none
      | _ :: _ => some (updateLast (segWrite r) g, pt, sv)
  match first with
  | none => none
  | some (g1, pt1, sv1) =>
    if r.segment = cfg.nSegments - 1 then
      match pt1, sv1 with
      | some p, some s =>
        match g1 with
        | [] => none
        | _ :: _ => some (updateLast (fun e =>
            { e with data := ps.reapply e.data p bt s cfg.matrSz }) g1, pt1, sv1)
      | _, _ => none
    else some (g1, pt1, sv1)

/-- The one-shot noise decorrelation build (lines 118-126): when the noise
buffer is non-empty and no decorrelation matrix exists yet, build it from
the concatenated noise data and clear the noise buffer. -/
def noiseBuild {α δ σ τ : Type} (ps : RtPs α δ σ τ) (st : RtState α δ σ τ) :
    RtState α δ σ τ :=
  if !st.noiseGroup.isEmpty && st.dmtx.isNone then
    { st with dmtx := some (ps.calcPrewhitening (concatData st.noiseGroup))
              noiseGroup := [] }
  else st

/-- The imaging tail of the loop body (lines 145-179): sensitivity-map
duplication, segment handling, and the completion test with its emit /
clear. -/
def imagingPhase {α δ σ τ : Type} (cfg : RtCfg) (ps : RtPs α δ σ τ)
    (st : RtState α δ σ τ) (r : RtRec α τ) :
    Option (RtState α δ σ τ × Option (List (RtRec α τ))) :=
  (sensFill cfg.nSlc st.sensmaps).bind fun sm =>
    (segGroupUpdate cfg ps (st.acqGroup r.contrast r.slice)
        st.predTrj st.shiftV st.baseTrj r).bind fun gps =>
      if r.lastInSlice || r.lastInRep then
        some ({ st with
          sensmaps := sm,
          acqGroup := fun c s =>
            if c = r.contrast ∧ s = r.slice then [] else st.acqGroup c s,
          predTrj := gps.2.1, shiftV := gps.2.2 }, some gps.1)
      else
        some ({ st with
          sensmaps := sm,
          acqGroup := fun c s =>
            if c = r.contrast ∧ s = r.slice then gps.1 else st.acqGroup c s,
          predTrj := gps.2.1, shiftV := gps.2.2 }, none)

/-- One loop iteration of process_spiral_dream of bart_pulseq_spiral_dream.py
for an Acquisition item, after insert_acq: noise buffering, the one-shot
noise decorrelation build (which clears the noise buffer), discarding of
phase-correction and dummy records, calibration buffering with per-slice
sensitivity computation on last-in-slice, and the imaging tail.  The second
component of a successful result is the emitted completed group (the
argument handed to process_raw before the buffer is cleared); none models a
Python exception. -/
def process_spiral_dream_step {α δ σ τ : Type} (cfg : RtCfg) (ps : RtPs α δ σ τ)
    (st : RtState α δ σ τ) (r : RtRec α τ) :
    Option (RtState α δ σ τ × Option (List (RtRec α τ))) :=
  let st0 := { st with baseTrj := updBase st.baseTrj r.baseTrjRet }
  if r.isNoise then some ({ st0 with noiseGroup := st0.noiseGroup ++ [r] }, none)
  else
    let st1 := noiseBuild ps st0
    if r.isPhaseCorr then some (st1, none)
    else if r.isDummy then some (st1, none)
    else if r.isParaCalib then
      let acs1 : ℕ → List (RtRec α τ) :=
        fun s => if s = r.slice then st1.acsGroup s ++ [r] else st1.acsGroup s
      if r.lastInSlice then
        some ({ st1 with
          sensmaps := fun s => if s = r.slice
            then some (ps.processAcs (acs1 r.slice) st1.dmtx) else st1.sensmaps s
          acsGroup := fun s => if s = r.slice then [] else acs1 s }, none)
      else some ({ st1 with acsGroup := acs1 }, none)
    else imagingPhase cfg ps st1 r

/-- Folding the spiral-dream router over a stream of acquisition records,
keeping the final state (a crash propagates). -/
def runDreamFrom {α δ σ τ : Type} (cfg : RtCfg) (ps : RtPs α δ σ τ) :
    RtState α δ σ τ → List (RtRec α τ) → Option (RtState α δ σ τ)
  | st, [] => some st
  | st, r :: rest =>
    match process_spiral_dream_step cfg ps st r with
    | none => none
    | some (st1, _) => runDreamFrom cfg ps st1 rest

/-- The mutable state of the process loop of bart_pics_pulseq.py: one global
acquisition buffer, the noise and calibration buffers, sensitivity maps and
the one-shot decorrelation matrix. -/
structure PicsState (α δ σ τ : Type) where
  acqGroup : List (RtRec α τ)
  noiseGroup : List (RtRec α τ)
  acsGroup : ℕ → List (RtRec α τ)
  sensmaps : ℕ → Option σ
  dmtx : Option δ

/-- The one-shot noise build of the pics router (lines 90-97): unlike the
spiral-dream router it does not clear the noise buffer. -/
def picsNoiseBuild {α δ σ τ : Type} (ps : RtPs α δ σ τ) (st : PicsState α δ σ τ) :
    PicsState α δ σ τ :=
  if !st.noiseGroup.isEmpty && st.dmtx.isNone then
    { st with dmtx := some (ps.calcPrewhitening (concatData st.noiseGroup)) }
  else st

/-- One loop iteration of process of bart_pics_pulseq.py for an Acquisition
item: the same one-shot noise decorrelation build, but the noise buffer is
left in place after the build; phase-correction records are skipped,
calibration records buffered per slice, and imaging records accumulated in
the single group, which is emitted on a last-in-slice or last-in-repetition
flag (computing the sensitivity map of that slice on demand first). -/
def process_step_pics {α δ σ τ : Type} (ps : RtPs α δ σ τ)
    (st : PicsState α δ σ τ) (r : RtRec α τ) :
    PicsState α δ σ τ × Option (List (RtRec α τ)) :=
  if r.isNoise then ({ st with noiseGroup := st.noiseGroup ++ [r] }, none)
  else
    let st1 := picsNoiseBuild ps st
    if r.isPhaseCorr then (st1, none)
    else if r.isParaCalib then
      ({ st1 with acsGroup := fun s => if s = r.slice then st1.acsGroup s ++ [r]
          else st1.acsGroup s }, none)
    else
      let st2 := { st1 with acqGroup := st1.acqGroup ++ [r] }
      if r.lastInSlice || r.lastInRep then
        let st3 := if (st2.sensmaps r.slice).isNone then
            { st2 with sensmaps := fun s => if s = r.slice
              then some (ps.processAcs (st2.acsGroup r.slice) st2.dmtx)
              else st2.sensmaps s }
          else st2
        ({ st3 with acqGroup := [] }, some st2.acqGroup)
      else (st2, none)

/-- Modelled from the spec: fov_shift_spiral_reapply of reco_helper.py (not
under src/) multiplies every complex sample by exp(-i phase), where the
phase combines the deviation between the predicted and the base trajectory
at that sample with the per-slice spatial shift in cycles per field of
view. -/
noncomputable def fov_shift_spiral_reapply (data : ℕ → ℕ → ℂ)
    (pred base : ℕ → ℕ → ℚ) (shift : ℕ → ℚ) (_matrSz : ℕ × ℕ) : ℕ → ℕ → ℂ :=
  fun c j => data c j * Complex.exp (-(2 * (Real.pi : ℂ) *
    ((∑ ax ∈ Finset.range 3, (pred j ax - base j ax) * shift ax : ℚ) : ℂ) * Complex.I))

/-- Folding the pics router over a stream of acquisition records (it has no
crash paths). -/
def runPicsFrom {α δ σ τ : Type} (ps : RtPs α δ σ τ) :
    PicsState α δ σ τ → List (RtRec α τ) → PicsState α δ σ τ
  | st, [] => st
  | st, r :: rest => runPicsFrom ps (process_step_pics ps st r).1 rest

/-! ## Concrete fixtures for the evaluation theorems -/

/-- All-zero encoding counters. -/
def encIdx0 : EncIdx :=
  { step1 := 0, step2 := 0, slice := 0, contrast := 0, phase := 0, average := 0,
    repetition := 0, setIdx := 0, segment := 0 }

/-- The x unit vector. -/
def e0q : ℕ → ℚ := fun i => if i = 0 then 1 else 0

/-- The y unit vector. -/
def e1q : ℕ → ℚ := fun i => if i = 1 then 1 else 0

/-- The z unit vector. -/
def e2q : ℕ → ℚ := fun i => if i = 2 then 1 else 0

/-- A plain unflagged protocol acquisition with identity direction cosines
and a one-sample zero gradient. -/
def protBase : ProtAcq :=
  { idx := encIdx0, read_dir := e0q, phase_dir := e1q, slice_dir := e2q,
    lastInSlice := false, lastInRep := false, isNoise := false, isPhaseCorr := false,
    isDummy := false, isParaCalib := false, trajSamples := 1, trajDims := 3,
    traj := fun _ _ => 0 }

/-- A plain dataset acquisition with one channel of constant data. -/
def dsetBase : DsetAcq :=
  { idx := encIdx0, read_dir := e0q, phase_dir := e1q, slice_dir := e2q,
    lastInSlice := false, lastInRep := false, isNoise := false, isPhaseCorr := false,
    isDummy := false, isParaCalib := false, number_of_samples := 40000,
    active_channels := 1, trajDims := 3, data := fun _ _ => 1, traj := fun _ _ => 0 }

/-- A protocol header with two segments per readout. -/
def hdr1 : ProtHdr :=
  { fov_x := 220, dwell_us := 1, grad_shift := 0, matrix_z := 0, nseg := 2 }

/-- Metadata with distinct matrix sizes, to separate the axes. -/
def kmeta1 : KMeta := { nc := 1, msx := 2, msy := 3, msz := 4 }

/-- Minimal metadata for the averaging claims. -/
def kmetaC : KMeta := { nc := 1, msx := 1, msy := 1, msz := 1 }

/-- A two-column, one-channel Cartesian record of constant data 1 at the
k-space origin. -/
def cart1 : CartAcq := { enc1 := 0, enc2 := 0, ncol := 2, nchan := 1, data := fun _ _ => 1 }

/-- The payload-preservation predicate used by the insert_acq claims: data,
trajectory and array sizes of the record are untouched. -/
def unchangedPayload (d dset : DsetAcq) : Prop :=
  d.data = dset.data ∧ d.traj = dset.traj ∧
  d.number_of_samples = dset.number_of_samples ∧ d.trajDims = dset.trajDims ∧
  d.active_channels = dset.active_channels

/-- The empty initial state of the spiral-dream router. -/
def emptyRtState (α δ σ τ : Type) : RtState α δ σ τ :=
  { acqGroup := fun _ _ => [], noiseGroup := [], acsGroup := fun _ => [],
    sensmaps := fun _ => none, dmtx := none, predTrj := none, shiftV := none,
    baseTrj := none }

/-- The empty initial state of the pics router. -/
def emptyPicsState (α δ σ τ : Type) : PicsState α δ σ τ :=
  { acqGroup := [], noiseGroup := [], acsGroup := fun _ => [],
    sensmaps := fun _ => none, dmtx := none }

/-- Trivial external collaborators over unit models. -/
def trivPs (α : Type) : RtPs α Unit Unit Unit :=
  { calcPrewhitening := fun _ => (), processAcs := fun _ _ => (),
    reapply := fun d _ _ _ _ => d }

/-- A two-slice, two-segment router configuration. -/
def cfg2 : RtCfg :=
  { nSlc := 2, nContr := 1, nSegments := 2, res := fun _ => 1, matrSz := (2, 2) }

/-- A one-slice, single-segment router configuration. -/
def cfg1 : RtCfg :=
  { nSlc := 1, nContr := 1, nSegments := 1, res := fun _ => 1, matrSz := (2, 2) }

/-- A plain unflagged imaging record with rational data. -/
def recImgQ : RtRec ℚ Unit :=
  { isNoise := false, isPhaseCorr := false, isDummy := false, isParaCalib := false,
    lastInSlice := false, lastInRep := false, slice := 0, contrast := 0, segment := 0,
    numSamples := 1, nChannels := 1, data := fun _ _ => 1, traj := fun _ _ => 0,
    position := fun _ => 0, read_dir := e0q, phase_dir := e1q, slice_dir := e2q,
    baseTrjRet := none }

/-- A noise-flagged record with rational data. -/
def recNoiseQ : RtRec ℚ Unit := { recImgQ with isNoise := true }

/-- An imaging record carrying the last-in-slice flag. -/
def recLastQ : RtRec ℚ Unit := { recImgQ with lastInSlice := true }

/-- A three-segment, one-slice configuration. -/
def cfg3 : RtCfg :=
  { nSlc := 1, nContr := 1, nSegments := 3, res := fun _ => 1, matrSz := (2, 2) }

/-- Router state holding one accumulated readout at contrast 0, slice 0. -/
def stBuf1 : RtState ℚ Unit Unit Unit :=
  { emptyRtState ℚ Unit Unit Unit with
    acqGroup := fun c s => if c = 0 ∧ s = 0 then [recImgQ] else [] }

/-- External collaborators over complex data whose FOV-shift reapplication
is the spec-modelled fov_shift_spiral_reapply (the None branch of the base
trajectory is never taken by the router runs below, since insert_acq sets
the base trajectory before the final segment arrives). -/
noncomputable def psReapply : RtPs ℂ Unit Unit (ℕ → ℕ → ℚ) :=
  { calcPrewhitening := fun _ => (), processAcs := fun _ _ => (),
    reapply := fun d p b sh ms =>
      match b with
      | some bt => fov_shift_spiral_reapply d p bt sh ms
      | none => d }

/-- A two-segment, one-slice configuration for the complex-data run. -/
def cfgC4 : RtCfg :=
  { nSlc := 1, nContr := 1, nSegments := 2, res := fun _ => 1, matrSz := (2, 2) }

/-- Segment-0 record of the complex-data run: one sample of value 1, a
predicted trajectory with kx = 1/2 at sample 0, position x = 1, and the
all-zero base trajectory returned by insert_acq. -/
def recSeg0C : RtRec ℂ (ℕ → ℕ → ℚ) :=
  { isNoise := false, isPhaseCorr := false, isDummy := false, isParaCalib := false,
    lastInSlice := false, lastInRep := false, slice := 0, contrast := 0, segment := 0,
    numSamples := 1, nChannels := 1, data := fun _ _ => 1,
    traj := fun _ ax => if ax = 0 then 1/2 else 0,
    position := e0q, read_dir := e0q, phase_dir := e1q, slice_dir := e2q,
    baseTrjRet := some (fun _ _ => 0) }

/-- The final segment of the same readout, with payload 2. -/
def recSeg1C : RtRec ℂ (ℕ → ℕ → ℚ) :=
  { recSeg0C with segment := 1, data := fun _ _ => 2, baseTrjRet := none }

/-- The router state after routing recSeg0C from the empty state. -/
def stC4 : RtState ℂ Unit Unit (ℕ → ℕ → ℚ) :=
  { acqGroup := fun c s => if c = 0 ∧ s = 0 then [recSeg0C] else [],
    noiseGroup := [], acsGroup := fun _ => [], sensmaps := fun _ => none, dmtx := none,
    predTrj := some recSeg0C.traj, shiftV := some (recShift cfgC4 recSeg0C),
    baseTrj := some (fun _ _ => 0) }

/-- State with a sensitivity map cached only for slice 0. -/
def stSens0 : RtState ℚ Unit Unit Unit :=
  { emptyRtState ℚ Unit Unit Unit with sensmaps := fun i => if i = 0 then some () else none }

/-- State with a sensitivity map cached only for slice 1. -/
def stSens1 : RtState ℚ Unit Unit Unit :=
  { emptyRtState ℚ Unit Unit Unit with sensmaps := fun i => if i = 1 then some () else none }

/-- A two-dimensional stored gradient (zero waveform) at partition
encoding step 1, for the trajectory-prediction claim. -/
def acqC5 : ProtAcq :=
  { protBase with idx := { encIdx0 with step2 := 1 }, trajDims := 2 }

/-- A header with matrix_z = 0, so that the Cartesian partition offset of
the two-dimensional branch of calc_traj is step2 - 0 = 1. -/
def hdrC5 : ProtHdr :=
  { fov_x := 1, dwell_us := 1, grad_shift := 0, matrix_z := 0, nseg := 1 }

/-! ## Helper lemmas about the numpy-style helpers -/

theorem unitExp_add (n : ℕ) (a b : ℤ) :
    unitExp n (a + b) = unitExp n a * unitExp n b := by
  unfold unitExp
  rw [← Complex.exp_add]
  congr 1
  push_cast [Int.cast_add]
  ring

theorem unitExp_eq_zpow (n : ℕ) (d : ℤ) :
    unitExp n d = Complex.exp (2 * Real.pi * Complex.I / n) ^ d := by
  rw [← Complex.exp_int_mul]
  unfold unitExp
  congr 1
  ring

theorem unitExp_zero (n : ℕ) : unitExp n 0 = 1 := by
  unfold unitExp
  simp

theorem unitExp_pow_self (n : ℕ) (hn : n ≠ 0) (d : ℤ) :
    unitExp n d ^ n = 1 := by
  rw [unitExp_eq_zpow, ← zpow_natCast (Complex.exp (2 * Real.pi * Complex.I / n) ^ d) n,
    ← zpow_mul, mul_comm d (n : ℤ), zpow_mul, zpow_natCast,
    (Complex.isPrimitiveRoot_exp n hn).pow_eq_one, one_zpow]

theorem unitExp_ne_one (n : ℕ) (hn : n ≠ 0) (d : ℤ) (hd : ¬ (n : ℤ) ∣ d) :
    unitExp n d ≠ 1 := by
  rw [unitExp_eq_zpow]
  intro h
  exact hd (((Complex.isPrimitiveRoot_exp n hn).zpow_eq_one_iff_dvd d).mp h)

theorem unitExp_geom_sum_not_dvd (n : ℕ) (hn : n ≠ 0) (d : ℤ) (hd : ¬ (n : ℤ) ∣ d) :
    ∑ k ∈ Finset.range n, unitExp n (d * k) = 0 := by
  have hpow : ∀ k : ℕ, unitExp n (d * k) = unitExp n d ^ k := by
    intro k
    rw [unitExp_eq_zpow, unitExp_eq_zpow, ← zpow_natCast
      (Complex.exp (2 * Real.pi * Complex.I / n) ^ d) k, ← zpow_mul]
  rw [Finset.sum_congr rfl fun k _ => hpow k, geom_sum_eq (unitExp_ne_one n hn d hd) n,
    unitExp_pow_self n hn d]
  simp

theorem npIFFT_npFFT (n : ℕ) (hn : n ≠ 0) (x : ℕ → ℂ) (j : ℕ) (hj : j < n) :
    npIFFT n (npFFT n x) j = x j := by
  unfold npIFFT npFFT
  have hmerge : ∀ k m : ℕ, x m * unitExp n (-(m * k)) * unitExp n (k * j)
      = x m * unitExp n (((j : ℤ) - m) * k) := by
    intro k m
    rw [mul_assoc, ← unitExp_add]
    congr 2
    ring
  have hswap : ∑ k ∈ Finset.range n,
        (∑ m ∈ Finset.range n, x m * unitExp n (-(m * k))) * unitExp n (k * j)
      = ∑ m ∈ Finset.range n,
          x m * ∑ k ∈ Finset.range n, unitExp n (((j : ℤ) - m) * k) := by
    calc ∑ k ∈ Finset.range n,
          (∑ m ∈ Finset.range n, x m * unitExp n (-(m * k))) * unitExp n (k * j)
        = ∑ k ∈ Finset.range n, ∑ m ∈ Finset.range n,
            x m * unitExp n (-(m * k)) * unitExp n (k * j) :=
          Finset.sum_congr rfl fun k _ => Finset.sum_mul _ _ _
      _ = ∑ m ∈ Finset.range n, ∑ k ∈ Finset.range n,
            x m * unitExp n (-(m * k)) * unitExp n (k * j) := Finset.sum_comm
      _ = ∑ m ∈ Finset.range n,
            x m * ∑ k ∈ Finset.range n, unitExp n (((j : ℤ) - m) * k) := by
          refine Finset.sum_congr rfl fun m _ => ?_
          rw [Finset.mul_sum]
          exact Finset.sum_congr rfl fun k _ => hmerge k m
  rw [hswap, Finset.sum_eq_single j]
  · have hone : ∀ k ∈ Finset.range n, unitExp n (((j : ℤ) - j) * k) = 1 := by
      intro k _
      rw [sub_self, zero_mul, unitExp_zero]
    have hinner : ∑ k ∈ Finset.range n, unitExp n (((j : ℤ) - j) * k) = (n : ℂ) := by
      rw [Finset.sum_congr rfl hone]
      simp
    rw [hinner]
    have hnc : (n : ℂ) ≠ 0 := Nat.cast_ne_zero.mpr hn
    field_simp
  · intro m hm hmj
    have hnd : ¬ (n : ℤ) ∣ ((j : ℤ) - m) := by
      intro hdvd
      have hmn : m < n := Finset.mem_range.mp hm
      have hz : (j : ℤ) - m = 0 := by
        refine Int.eq_zero_of_abs_lt_dvd hdvd ?_
        rw [abs_sub_lt_iff]
        omega
      have hjm : j = m := by omega
      exact hmj hjm.symm
    rw [unitExp_geom_sum_not_dvd n hn _ hnd, mul_zero]
  · intro hj'
    exact absurd (Finset.mem_range.mpr hj) hj'

theorem npFftshift_npIfftshift {β : Type} (n : ℕ) (x : ℕ → β) (i : ℕ) (hi : i < n) :
    npFftshift n (npIfftshift n x) i = x i := by
  show x (((i + (n - n / 2)) % n + n / 2) % n) = x i
  rw [Nat.mod_add_mod]
  have h : i + (n - n / 2) + n / 2 = i + n := by omega
  rw [h, Nat.add_mod_right, Nat.mod_eq_of_lt hi]

theorem npIfftshift_npFftshift {β : Type} (n : ℕ) (x : ℕ → β) (i : ℕ) (hi : i < n) :
    npIfftshift n (npFftshift n x) i = x i := by
  show x (((i + n / 2) % n + (n - n / 2)) % n) = x i
  rw [Nat.mod_add_mod]
  have h : i + n / 2 + (n - n / 2) = i + n := by omega
  rw [h, Nat.add_mod_right, Nat.mod_eq_of_lt hi]

theorem np_interp_const {V : Type} [AddCommGroup V] [Module ℚ V] (x : ℚ) (c : V) :
    ∀ l : List (ℚ × V), l ≠ [] → (∀ p ∈ l, p.2 = c) → np_interp x l = c
  | [], h, _ => absurd rfl h
  | [(x0, f0)], _, hc => by
      have h0 : f0 = c := hc (x0, f0) (by simp)
      simp [np_interp, h0]
  | (x0, f0) :: (x1, f1) :: rest, _, hc => by
      have h0 : f0 = c := hc (x0, f0) (by simp)
      have h1 : f1 = c := hc (x1, f1) (by simp)
      by_cases hx0 : x ≤ x0
      · simp [np_interp, hx0, h0]
      · by_cases hx1 : x ≤ x1
        · simp [np_interp, hx0, hx1, h0, h1]
        · have hrec := np_interp_const x c ((x1, f1) :: rest) (by simp)
            (fun p hp => hc p (List.mem_cons_of_mem _ hp))
          simp [np_interp, hx0, hx1, hrec]

/-- Evaluation helper: the rounded full sample count of the 40000-sample,
two-segment fixture. -/
theorem dsetBase_floor : ⌊(dsetBase.number_of_samples : ℚ) * hdr1.nseg + 1/2⌋ = 80000 := by
  show ⌊((40000 : ℕ) : ℚ) * 2 + 1/2⌋ = 80000
  rw [Int.floor_eq_iff]
  constructor <;> norm_num

/-! ## Claim C10: role dispatch of insert_acq -/

/-- Claim C10: insert_acq returns a non-None base trajectory only for a
non-Cartesian acquisition with segment index 0 and no role flag; for every
acquisition whose protocol counterpart is flagged noise, phase-correction,
dummy-scan or parallel-calibration it sets the corresponding flag on the
record and returns None without resizing the record or modifying its data or
trajectory; and for every other acquisition outside the non-Cartesian
segment-0 path (in particular any one with segment index greater than 0) it
likewise returns None without resizing or modifying data or trajectory. -/
theorem c10_insert_acq_role_dispatch (gs : ℕ) (girf : ℕ → ℕ → ℕ → ℂ)
    (prot : ProtAcq) (dset : DsetAcq) (hdr : ProtHdr) (nc : Bool) :
    (∀ b, (insert_acq gs girf prot dset hdr nc).1 = Except.ok (some b) →
      nc = true ∧ prot.idx.segment = 0 ∧ prot.isNoise = false ∧
      prot.isPhaseCorr = false ∧ prot.isDummy = false ∧ prot.isParaCalib = false) ∧
    (prot.isNoise = true →
      (insert_acq gs girf prot dset hdr nc).1 = Except.ok none ∧
      (insert_acq gs girf prot dset hdr nc).2.isNoise = true ∧
      unchangedPayload (insert_acq gs girf prot dset hdr nc).2 dset) ∧
    (prot.isNoise = false → prot.isPhaseCorr = true →
      (insert_acq gs girf prot dset hdr nc).1 = Except.ok none ∧
      (insert_acq gs girf prot dset hdr nc).2.isPhaseCorr = true ∧
      unchangedPayload (insert_acq gs girf prot dset hdr nc).2 dset) ∧
    (prot.isNoise = false → prot.isPhaseCorr = false → prot.isDummy = true →
      (insert_acq gs girf prot dset hdr nc).1 = Except.ok none ∧
      (insert_acq gs girf prot dset hdr nc).2.isDummy = true ∧
      unchangedPayload (insert_acq gs girf prot dset hdr nc).2 dset) ∧
    (prot.isNoise = false → prot.isPhaseCorr = false → prot.isDummy = false →
      prot.isParaCalib = true →
      (insert_acq gs girf prot dset hdr nc).1 = Except.ok none ∧
      (insert_acq gs girf prot dset hdr nc).2.isParaCalib = true ∧
      unchangedPayload (insert_acq gs girf prot dset hdr nc).2 dset) ∧
    (prot.isNoise = false → prot.isPhaseCorr = false → prot.isDummy = false →
      prot.isParaCalib = false → (nc = false ∨ prot.idx.segment ≠ 0) →
      (insert_acq gs girf prot dset hdr nc).1 = Except.ok none ∧
      unchangedPayload (insert_acq gs girf prot dset hdr nc).2 dset) := by
  refine ⟨?_, ?_, ?_, ?_, ?_, ?_⟩
  · intro b hb
    cases hn : prot.isNoise
    · cases hp : prot.isPhaseCorr
      · cases hd : prot.isDummy
        · cases hc : prot.isParaCalib
          · by_cases hseg : (nc && (prot.idx.segment == 0)) = true
            · have hnc : nc = true := (Bool.and_eq_true _ _ |>.mp hseg).1
              have hs0 : prot.idx.segment = 0 := by
                have := (Bool.and_eq_true _ _ |>.mp hseg).2
                simpa using this
              exact ⟨hnc, hs0, rfl, rfl, rfl, rfl⟩
            · simp [insert_acq, hn, hp, hd, hc] at hb
              rw [if_neg] at hb
              · simp at hb
              · simpa using hseg
          · simp [insert_acq, hn, hp, hd, hc] at hb
        · simp [insert_acq, hn, hp, hd] at hb
      · simp [insert_acq, hn, hp] at hb
    · simp [insert_acq, hn] at hb
  · intro hn
    simp [insert_acq, hn, unchangedPayload]
  · intro hn hp
    simp [insert_acq, hn, hp, unchangedPayload]
  · intro hn hp hd
    simp [insert_acq, hn, hp, hd, unchangedPayload]
  · intro hn hp hd hc
    simp [insert_acq, hn, hp, hd, hc, unchangedPayload]
  · intro hn hp hd hc hrest
    have hcond : (nc && (prot.idx.segment == 0)) = false := by
      rcases hrest with h | h
      · simp [h]
      · simp [h]
    simp [insert_acq, hn, hp, hd, hc, hcond, unchangedPayload]

/-- Witness for claim C10 at a concrete noise-flagged acquisition and a
concrete unflagged segment-1 acquisition. -/
theorem c10_insert_acq_role_dispatch_witness :
    ((insert_acq 0 identity_girf { protBase with isNoise := true } dsetBase hdr1 true).1 =
      Except.ok none ∧
     (insert_acq 0 identity_girf { protBase with isNoise := true } dsetBase hdr1 true).2.isNoise =
      true ∧
     unchangedPayload
      (insert_acq 0 identity_girf { protBase with isNoise := true } dsetBase hdr1 true).2
      dsetBase) ∧
    ((insert_acq 0 identity_girf { protBase with idx := { encIdx0 with segment := 1 } }
        dsetBase hdr1 true).1 = Except.ok none ∧
     unchangedPayload
      (insert_acq 0 identity_girf { protBase with idx := { encIdx0 with segment := 1 } }
        dsetBase hdr1 true).2 dsetBase) := by
  constructor
  · exact (c10_insert_acq_role_dispatch 0 identity_girf
      { protBase with isNoise := true } dsetBase hdr1 true).2.1 rfl
  · exact (c10_insert_acq_role_dispatch 0 identity_girf
      { protBase with idx := { encIdx0 with segment := 1 } } dsetBase hdr1 true).2.2.2.2.2
      rfl rfl rfl rfl (Or.inr (by decide))

/-! ## Claim C7: the uint16 sample-count guard of insert_acq -/

/-- Claim C7 (amended): for every non-Cartesian segment-0 acquisition that
carries none of the noise / phase-correction / dummy / calibration flags, if
the full sample count (number_of_samples times the number of segments,
rounded to the nearest integer) exceeds 65535 then insert_acq raises the
ValueError and leaves data, trajectory and array sizes of the record
unchanged. -/
theorem c7_insert_acq_uint16_guard (gs : ℕ) (girf : ℕ → ℕ → ℕ → ℂ)
    (prot : ProtAcq) (dset : DsetAcq) (hdr : ProtHdr)
    (hn : prot.isNoise = false) (hp : prot.isPhaseCorr = false)
    (hd : prot.isDummy = false) (hc : prot.isParaCalib = false)
    (hseg : prot.idx.segment = 0)
    (hbig : 65535 < ⌊(dset.number_of_samples : ℚ) * hdr.nseg + 1/2⌋) :
    (insert_acq gs girf prot dset hdr true).1 = Except.error
      "The number of samples exceed the maximum allowed number of 65535 (uint16 maximum)." ∧
    unchangedPayload (insert_acq gs girf prot dset hdr true).2 dset := by
  have hbig2 : 65535 < ⌊(dset.number_of_samples : ℚ) * hdr.nseg + 2⁻¹⌋ := by
    rwa [← one_div]
  simp [insert_acq, hn, hp, hd, hc, hseg, hbig2, unchangedPayload]

/-- Witness for claim C7: a 40000-sample two-segment acquisition overflows
the uint16 limit and is rejected unchanged. -/
theorem c7_insert_acq_uint16_guard_witness :
    65535 < ⌊(dsetBase.number_of_samples : ℚ) * hdr1.nseg + 1/2⌋ ∧
    (insert_acq 0 identity_girf protBase dsetBase hdr1 true).1 = Except.error
      "The number of samples exceed the maximum allowed number of 65535 (uint16 maximum)." ∧
    unchangedPayload (insert_acq 0 identity_girf protBase dsetBase hdr1 true).2 dsetBase := by
  refine ⟨by rw [dsetBase_floor]; norm_num, ?_⟩
  exact c7_insert_acq_uint16_guard 0 identity_girf protBase dsetBase hdr1
    rfl rfl rfl rfl rfl (by rw [dsetBase_floor]; norm_num)

/-- Counterexample to claim C7 as stated: a noise-flagged non-Cartesian
segment-0 acquisition whose full sample count exceeds 65535 is not rejected;
insert_acq returns None successfully, because the flag dispatch returns
before the sample-count guard runs. -/
theorem c7_insert_acq_uint16_guard_counterexample :
    65535 < ⌊(dsetBase.number_of_samples : ℚ) * hdr1.nseg + 1/2⌋ ∧
    { protBase with isNoise := true }.idx.segment = 0 ∧
    (insert_acq 0 identity_girf { protBase with isNoise := true } dsetBase hdr1 true).1 =
      Except.ok none := by
  exact ⟨by rw [dsetBase_floor]; norm_num, rfl, rfl⟩

/-! ## Claims C8 and C2: sort_into_kspace -/

/-- Helper: a cell no record of the list maps to accumulates nothing. -/
theorem kspace_sum_not_visited (meta : KMeta) (group0 : List CartAcq) (zf : Bool)
    (dataOf : CartAcq → ℕ → ℕ → ℚ) :
    ∀ (l : List CartAcq) (cell : ℤ × ℤ) (c x : ℕ),
      (∀ a ∈ l, cellOf meta group0 zf a ≠ cell) →
      kspace_sum meta group0 zf dataOf l cell c x = 0
  | [], _, _, _, _ => rfl
  | a :: rest, cell, c, x, h => by
    have ha : cellOf meta group0 zf a ≠ cell := h a (by simp)
    have hrest := kspace_sum_not_visited meta group0 zf dataOf rest cell c x
      fun b hb => h b (List.mem_cons_of_mem _ hb)
    simp only [kspace_sum, hrest]
    rw [if_neg]
    · ring
    · intro hcon
      exact ha hcon.1.symm

/-- Helper: a cell no record of the list maps to keeps hit count zero. -/
theorem kspace_cnt_not_visited (meta : KMeta) (group0 : List CartAcq) (zf : Bool) :
    ∀ (l : List CartAcq) (cell : ℤ × ℤ),
      (∀ a ∈ l, cellOf meta group0 zf a ≠ cell) →
      kspace_cnt meta group0 zf l cell = 0
  | [], _, _ => rfl
  | a :: rest, cell, h => by
    have ha : cellOf meta group0 zf a ≠ cell := h a (by simp)
    have hrest := kspace_cnt_not_visited meta group0 zf rest cell
      fun b hb => h b (List.mem_cons_of_mem _ hb)
    simp only [kspace_cnt, hrest]
    rw [if_neg]
    intro hcon
    exact ha hcon.symm

/-- Helper: accumulating k copies of one record multiplies its contribution
by k. -/
theorem kspace_sum_replicate (meta : KMeta) (group0 : List CartAcq) (zf : Bool)
    (dataOf : CartAcq → ℕ → ℕ → ℚ) (a : CartAcq) (cell : ℤ × ℤ) (c x : ℕ) :
    ∀ k : ℕ, kspace_sum meta group0 zf dataOf (List.replicate k a) cell c x =
      k * (if cell = cellOf meta group0 zf a ∧
          meta.msx - a.ncol / 2 ≤ x ∧ x < meta.msx + a.ncol / 2
        then dataOf a c (x - (meta.msx - a.ncol / 2)) else 0)
  | 0 => by simp [kspace_sum]
  | k + 1 => by
    rw [List.replicate_succ]
    simp only [kspace_sum, kspace_sum_replicate meta group0 zf dataOf a cell c x k]
    push_cast
    ring

/-- Helper: the uint16 hit counter after k copies of one record. -/
theorem kspace_cnt_replicate (meta : KMeta) (group0 : List CartAcq) (zf : Bool)
    (a : CartAcq) (cell : ℤ × ℤ) :
    ∀ k : ℕ, kspace_cnt meta group0 zf (List.replicate k a) cell =
      if cell = cellOf meta group0 zf a then k % 65536 else 0
  | 0 => by simp [kspace_cnt]
  | k + 1 => by
    rw [List.replicate_succ]
    simp only [kspace_cnt, kspace_cnt_replicate meta group0 zf a cell k]
    by_cases hc : cell = cellOf meta group0 zf a
    · simp [hc, Nat.mod_add_mod]
    · simp [hc]

/-- Claim C2 (amended): sort_into_kspace adds each record's (possibly
prewhitened) samples into the grid cell addressed by its effective encoding
indices, counts hits per cell in a uint16 counter, and divides every cell by
max(1, hit count).  Consequently a cell never visited remains exactly zero,
and for 1 ≤ k ≤ 65535 a cell written by k copies of the same record equals
the mean of those k identical inputs (at k = 65536 the counter wraps and
the property fails). -/
theorem c2_sort_into_kspace_mean (meta : KMeta)
    (pw : Option ((ℕ → ℕ → ℚ) → ℕ → ℕ → ℚ)) (zf : Bool) :
    (∀ (group : List CartAcq) (y z : ℕ),
      (∀ a ∈ group, cellOf meta group zf a ≠ ((y : ℤ), (z : ℤ))) →
      ∀ x c, (sort_into_kspace meta group pw zf).val x y z c = 0) ∧
    (∀ (a : CartAcq) (k : ℕ), 1 ≤ k → k ≤ 65535 →
      ∀ (y z : ℕ), cellOf meta (List.replicate k a) zf a = ((y : ℤ), (z : ℤ)) →
      ∀ x c, meta.msx - a.ncol / 2 ≤ x → x < meta.msx + a.ncol / 2 →
        (sort_into_kspace meta (List.replicate k a) pw zf).val x y z c =
          pwData pw a c (x - (meta.msx - a.ncol / 2))) := by
  constructor
  · intro group y z h x c
    show kspace_sum meta group zf (pwData pw) group ((y : ℤ), (z : ℤ)) c x /
      ((max 1 (kspace_cnt meta group zf group ((y : ℤ), (z : ℤ))) : ℕ) : ℚ) = 0
    rw [kspace_sum_not_visited meta group zf (pwData pw) group _ c x h]
    simp
  · intro a k hk1 hk2 y z hcell x c hx1 hx2
    show kspace_sum meta (List.replicate k a) zf (pwData pw) (List.replicate k a)
        ((y : ℤ), (z : ℤ)) c x /
      ((max 1 (kspace_cnt meta (List.replicate k a) zf (List.replicate k a)
        ((y : ℤ), (z : ℤ))) : ℕ) : ℚ) =
      pwData pw a c (x - (meta.msx - a.ncol / 2))
    rw [kspace_sum_replicate, kspace_cnt_replicate]
    rw [if_pos hcell.symm, if_pos ⟨hcell.symm, hx1, hx2⟩]
    have hmod : k % 65536 = k := Nat.mod_eq_of_lt (by omega)
    rw [hmod]
    have hmax : max 1 k = k := by omega
    rw [hmax]
    have hkq : (k : ℚ) ≠ 0 := by
      simp
      omega
    field_simp

/-- Witness for claim C2: three copies of a two-column record at the origin
of a 1x1x1 matrix average back to the record, and an unvisited cell is
zero. -/
theorem c2_sort_into_kspace_mean_witness :
    (sort_into_kspace kmetaC (List.replicate 3 cart1) none false).val 0 0 0 0 =
      pwData none cart1 0 (0 - (kmetaC.msx - cart1.ncol / 2)) ∧
    (sort_into_kspace kmetaC [cart1] none false).val 0 5 5 0 = 0 := by
  constructor
  · exact (c2_sort_into_kspace_mean kmetaC none false).2 cart1 3 (by decide) (by decide)
      0 0 (by decide) 0 0 (by decide) (by decide)
  · exact (c2_sort_into_kspace_mean kmetaC none false).1 [cart1] 5 5 (by decide) 0 0

/-- Counterexample to claim C2 as stated: with 65536 identical copies the
uint16 hit counter wraps to zero, max(1, 0) = 1, and the output cell holds
the 65536-fold sum instead of the mean 1 of the identical inputs. -/
theorem c2_sort_into_kspace_mean_counterexample :
    (sort_into_kspace kmetaC (List.replicate 65536 cart1) none false).val 0 0 0 0 = 65536 ∧
    pwData none cart1 0 0 = 1 ∧ (65536 : ℚ) ≠ 1 := by
  refine ⟨?_, rfl, by norm_num⟩
  show kspace_sum kmetaC (List.replicate 65536 cart1) false (pwData none)
      (List.replicate 65536 cart1) ((0 : ℤ), (0 : ℤ)) 0 0 /
    ((max 1 (kspace_cnt kmetaC (List.replicate 65536 cart1) false (List.replicate 65536 cart1)
      ((0 : ℤ), (0 : ℤ))) : ℕ) : ℚ) = 65536
  rw [kspace_sum_replicate, kspace_cnt_replicate]
  have hc : cellOf kmetaC (List.replicate 65536 cart1) false cart1 = ((0 : ℤ), (0 : ℤ)) := by
    simp [cellOf, effAddr, wrapIdx, cart1]
  rw [if_pos hc.symm, if_pos ⟨hc.symm, by decide, by decide⟩]
  norm_num [pwData, cart1]

/-- Claim C8 (amended): the Cartesian sort of the spiral-dream pipeline
returns an array whose axes are ordered [freq, phase, partition, channels]
(channels last), with the frequency axis twice the encoded matrixSize.x
(readout oversampling), the phase axis equal to matrixSize.x (not
matrixSize.y) and the partition axis equal to matrixSize.z; the value at
[x, y, z, c] is the accumulated cell (y, z, c, x) divided by max(1, hits),
that is, the [ny, nz, nc, nx] grid transposed by [3, 0, 1, 2]. -/
theorem c8_sort_into_kspace_axes (meta : KMeta) (group : List CartAcq)
    (pw : Option ((ℕ → ℕ → ℚ) → ℕ → ℕ → ℚ)) (zf : Bool) :
    (sort_into_kspace meta group pw zf).shape =
      [2 * meta.msx, meta.msx, meta.msz, meta.nc] ∧
    ∀ x y z c, (sort_into_kspace meta group pw zf).val x y z c =
      kspace_sum meta group zf (pwData pw) group ((y : ℤ), (z : ℤ)) c x /
        ((max 1 (kspace_cnt meta group zf group ((y : ℤ), (z : ℤ))) : ℕ) : ℚ) :=
  ⟨rfl, fun _ _ _ _ => rfl⟩

/-- Counterexample to claim C8 as stated: with channel count 1 and matrix
sizes (2, 3, 4) the returned shape is [4, 2, 4, 1], not the claimed
channels-first shape [channels, matrixSize.x, matrixSize.y, matrixSize.z]
= [1, 2, 3, 4]. -/
theorem c8_sort_into_kspace_axes_counterexample :
    (sort_into_kspace kmeta1 [] none false).shape = [4, 2, 4, 1] ∧
    [kmeta1.nc, kmeta1.msx, kmeta1.msy, kmeta1.msz] = [1, 2, 3, 4] ∧
    (sort_into_kspace kmeta1 [] none false).shape ≠
      [kmeta1.nc, kmeta1.msx, kmeta1.msy, kmeta1.msz] := by
  exact ⟨rfl, rfl, by decide⟩

/-! ## Claim C6: the sample-count adjustment of grad_pred -/

/-- Claim C6 (amended): whenever the impulse-response sample count differs
from the gradient waveform's, grad_pred equalizes the two at the larger
count before the frequency-domain multiplication: a longer impulse response
is left untouched while the gradient is zero-filled up to the response
count, and a longer gradient is left untouched while the impulse response is
linearly resampled onto the gradient count; the warning is emitted exactly in
the resampling case. -/
theorem c6_grad_pred_resize_matches (gs fs : ℕ) (grad : ℕ → ℕ → ℚ)
    (girf : ℕ → ℕ → ℕ → ℂ) :
    (grad_pred_resize gs fs grad girf).nfft = max gs fs ∧
    (gs < fs →
      (grad_pred_resize gs fs grad girf).girf = girf ∧
      (grad_pred_resize gs fs grad girf).grad =
        (fun d t => if t < gs then grad d t else 0) ∧
      (grad_pred_resize gs fs grad girf).warned = false) ∧
    (fs < gs →
      (grad_pred_resize gs fs grad girf).grad = grad ∧
      (grad_pred_resize gs fs grad girf).girf = (fun i d t =>
        np_interp (linspace (fs : ℚ) gs t)
          ((List.range fs).map fun u => (linspace (fs : ℚ) fs u, girf i d u))) ∧
      (grad_pred_resize gs fs grad girf).warned = true) ∧
    (gs = fs → grad_pred_resize gs fs grad girf =
      { nfft := gs, grad := grad, girf := girf, warned := false }) := by
  refine ⟨?_, ?_, ?_, ?_⟩
  · rcases lt_trichotomy gs fs with h | h | h
    · simp only [grad_pred_resize, if_pos (show fs > gs from h)]
      omega
    · subst h
      simp [grad_pred_resize]
    · simp only [grad_pred_resize, if_neg (show ¬ fs > gs by omega),
        if_pos (show gs > fs from h)]
      omega
  · intro h
    simp [grad_pred_resize, if_pos (show fs > gs from h)]
  · intro h
    simp [grad_pred_resize, if_neg (show ¬ fs > gs by omega),
      if_pos (show gs > fs from h)]
  · intro h
    subst h
    simp [grad_pred_resize]

/-- Witness for claim C6: a 1-sample gradient against a 2-sample response,
and a 2-sample gradient against a 1-sample response. -/
theorem c6_grad_pred_resize_matches_witness :
    ((grad_pred_resize 1 2 (fun _ _ => 0) identity_girf).nfft = max 1 2 ∧
     (grad_pred_resize 1 2 (fun _ _ => 0) identity_girf).girf = identity_girf ∧
     (grad_pred_resize 1 2 (fun _ _ => 0) identity_girf).warned = false) ∧
    ((grad_pred_resize 2 1 (fun _ _ => 0) identity_girf).grad = (fun _ _ => 0) ∧
     (grad_pred_resize 2 1 (fun _ _ => 0) identity_girf).warned = true) := by
  refine ⟨⟨(c6_grad_pred_resize_matches 1 2 (fun _ _ => 0) identity_girf).1, ?_, ?_⟩, ?_, ?_⟩
  · exact ((c6_grad_pred_resize_matches 1 2 (fun _ _ => 0) identity_girf).2.1 (by omega)).1
  · exact ((c6_grad_pred_resize_matches 1 2 (fun _ _ => 0) identity_girf).2.1 (by omega)).2.2
  · exact ((c6_grad_pred_resize_matches 2 1 (fun _ _ => 0) identity_girf).2.2.1 (by omega)).1
  · exact ((c6_grad_pred_resize_matches 2 1 (fun _ _ => 0) identity_girf).2.2.1 (by omega)).2.2

/-- Counterexample to claim C6 as stated: with a 1-sample gradient and a
2-sample impulse response the response is neither zero-filled nor resampled
(it is returned untouched), and the frequency-domain multiplication runs at
the response count 2, not at the gradient waveform's sample count 1. -/
theorem c6_grad_pred_resize_matches_counterexample :
    (grad_pred_resize 1 2 (fun _ _ => 0) identity_girf).girf = identity_girf ∧
    (grad_pred_resize 1 2 (fun _ _ => 0) identity_girf).nfft = 2 ∧
    (2 : ℕ) ≠ 1 :=
  ⟨rfl, rfl, by decide⟩

/-! ## Structural lemmas about the spiral-dream step -/

/-- For an imaging record (no role flag), the loop body is the imaging tail
applied to the state after the base-trajectory update and the one-shot noise
build. -/
theorem dream_step_imaging_eq {α δ σ τ : Type} (cfg : RtCfg) (ps : RtPs α δ σ τ)
    (st : RtState α δ σ τ) (r : RtRec α τ)
    (hn : r.isNoise = false) (hp : r.isPhaseCorr = false)
    (hd : r.isDummy = false) (hc : r.isParaCalib = false) :
    process_spiral_dream_step cfg ps st r =
      imagingPhase cfg ps (noiseBuild ps { st with baseTrj := updBase st.baseTrj r.baseTrjRet }) r := by
  simp [process_spiral_dream_step, hn, hp, hd, hc]

/-- The noise build touches only the decorrelation matrix and the noise
buffer. -/
theorem noiseBuild_fields {α δ σ τ : Type} (ps : RtPs α δ σ τ) (st : RtState α δ σ τ) :
    (noiseBuild ps st).sensmaps = st.sensmaps ∧
    (noiseBuild ps st).acqGroup = st.acqGroup ∧
    (noiseBuild ps st).predTrj = st.predTrj ∧
    (noiseBuild ps st).shiftV = st.shiftV ∧
    (noiseBuild ps st).baseTrj = st.baseTrj ∧
    (noiseBuild ps st).acsGroup = st.acsGroup := by
  unfold noiseBuild
  split <;> exact ⟨rfl, rfl, rfl, rfl, rfl, rfl⟩

/-! ## Claim C9: sensitivity-map duplication -/

/-- Claim C9 (amended): when an imaging record is routed while at least one
but not all slices hold a sensitivity map, and the routing succeeds, the
router fills the maps by the parity rule of the slice count: for an even
slice count every even slice i receives the map of slice i + 1, for an odd
slice count every odd slice i receives the map of slice i - 1; all other
slices keep their maps.  (When a source slice of the rule holds no map the
routing does not succeed: it crashes on None.copy(), see the
counterexample.) -/
theorem c9_sensmap_duplication {α δ σ τ : Type} (cfg : RtCfg) (ps : RtPs α δ σ τ)
    (st : RtState α δ σ τ) (r : RtRec α τ)
    (p : RtState α δ σ τ × Option (List (RtRec α τ)))
    (hn : r.isNoise = false) (hp : r.isPhaseCorr = false)
    (hd : r.isDummy = false) (hc : r.isParaCalib = false)
    (htrig : sensCount cfg.nSlc st.sensmaps ≠ cfg.nSlc ∧
      sensCount cfg.nSlc st.sensmaps ≠ 0)
    (hst : process_spiral_dream_step cfg ps st r = some p) :
    ∀ i, p.1.sensmaps i =
      if cfg.nSlc % 2 = 0 then
        (if i % 2 = 0 ∧ i + 1 < cfg.nSlc then st.sensmaps (i + 1) else st.sensmaps i)
      else
        (if i % 2 = 1 ∧ i < cfg.nSlc then st.sensmaps (i - 1) else st.sensmaps i) := by
  rw [dream_step_imaging_eq cfg ps st r hn hp hd hc] at hst
  set stb := noiseBuild ps { st with baseTrj := updBase st.baseTrj r.baseTrjRet } with hstb
  have hsm : stb.sensmaps = st.sensmaps := (noiseBuild_fields ps _).1
  unfold imagingPhase at hst
  cases hsf : sensFill cfg.nSlc stb.sensmaps with
  | none => rw [hsf] at hst; exact absurd hst (by simp)
  | some sm =>
    rw [hsf] at hst
    simp only [Option.some_bind] at hst
    rw [hsm] at hsf
    unfold sensFill at hsf
    rw [if_pos htrig] at hsf
    have hpsm : p.1.sensmaps = sm := by
      cases hseg : segGroupUpdate cfg ps (stb.acqGroup r.contrast r.slice)
          stb.predTrj stb.shiftV stb.baseTrj r with
      | none => rw [hseg] at hst; exact absurd hst (by simp)
      | some gps =>
        rw [hseg] at hst
        simp only [Option.some_bind] at hst
        by_cases hl : (r.lastInSlice || r.lastInRep) = true
        · rw [if_pos hl] at hst
          have hpe := Option.some.inj hst
          rw [← hpe]
        · rw [if_neg hl] at hst
          have hpe := Option.some.inj hst
          rw [← hpe]
    rw [hpsm]
    intro i
    by_cases hpar : cfg.nSlc % 2 = 0
    · rw [if_pos hpar] at hsf ⊢
      by_cases hall : ((List.range cfg.nSlc).all fun i =>
          !(i % 2 == 0 && decide (i + 1 < cfg.nSlc)) || (st.sensmaps (i + 1)).isSome) = true
      · rw [if_pos hall] at hsf
        have := Option.some.inj hsf
        rw [← this]
      · rw [if_neg hall] at hsf
        exact absurd hsf (by simp)
    · rw [if_neg hpar] at hsf ⊢
      by_cases hall : ((List.range cfg.nSlc).all fun i =>
          !(i % 2 == 1) || (st.sensmaps (i - 1)).isSome) = true
      · rw [if_pos hall] at hsf
        have := Option.some.inj hsf
        rw [← this]
      · rw [if_neg hall] at hsf
        exact absurd hsf (by simp)

/-- Witness for claim C9: two slices with a map only at slice 1; routing an
imaging record duplicates it onto slice 0. -/
theorem c9_sensmap_duplication_witness :
    (process_spiral_dream_step cfg2 (trivPs ℚ) stSens1 recImgQ).elim False (fun p =>
      p.1.sensmaps 0 = stSens1.sensmaps 1 ∧ p.1.sensmaps 1 = stSens1.sensmaps 1) := by
  obtain ⟨p, hp⟩ := Option.isSome_iff_exists.mp
    (by rfl : (process_spiral_dream_step cfg2 (trivPs ℚ) stSens1 recImgQ).isSome = true)
  rw [hp]
  have h := c9_sensmap_duplication cfg2 (trivPs ℚ) stSens1 recImgQ p
    rfl rfl rfl rfl ⟨by decide, by decide⟩ hp
  have h0 := h 0
  have h1 := h 1
  rw [if_pos (by decide : cfg2.nSlc % 2 = 0)] at h0 h1
  rw [if_pos (by decide : 0 % 2 = 0 ∧ 0 + 1 < cfg2.nSlc)] at h0
  rw [if_neg (by decide : ¬ (1 % 2 = 0 ∧ 1 + 1 < cfg2.nSlc))] at h1
  exact ⟨h0, h1⟩

/-- Counterexample to claim C9 as stated: two slices with a map only at
slice 0.  At least one but not all slices hold a map, but instead of
assigning slice 0 a copy of the (missing) slice 1 map, the router crashes on
None.copy(): the step has no successful result at all. -/
theorem c9_sensmap_duplication_counterexample :
    sensCount cfg2.nSlc stSens0.sensmaps = 1 ∧ cfg2.nSlc = 2 ∧
    process_spiral_dream_step cfg2 (trivPs ℚ) stSens0 recImgQ = none := by
  exact ⟨rfl, rfl, rfl⟩

/-! ## Claim C3: the noise decorrelation matrix is built at most once -/

/-- Helper: a successful imaging tail changes neither the decorrelation
matrix nor the noise buffer. -/
theorem imagingPhase_preserves_noise {α δ σ τ : Type} (cfg : RtCfg)
    (ps : RtPs α δ σ τ) (s : RtState α δ σ τ) (r : RtRec α τ)
    (q : RtState α δ σ τ × Option (List (RtRec α τ)))
    (h : imagingPhase cfg ps s r = some q) :
    q.1.dmtx = s.dmtx ∧ q.1.noiseGroup = s.noiseGroup := by
  unfold imagingPhase at h
  cases hsf : sensFill cfg.nSlc s.sensmaps with
  | none => rw [hsf] at h; exact absurd h (by simp)
  | some sm =>
    rw [hsf] at h
    simp only [Option.some_bind] at h
    cases hsg : segGroupUpdate cfg ps (s.acqGroup r.contrast r.slice)
        s.predTrj s.shiftV s.baseTrj r with
    | none => rw [hsg] at h; exact absurd h (by simp)
    | some gps =>
      rw [hsg] at h
      simp only [Option.some_bind] at h
      by_cases hl : (r.lastInSlice || r.lastInRep) = true
      · rw [if_pos hl] at h
        have hq := Option.some.inj h
        rw [← hq]
        exact ⟨rfl, rfl⟩
      · rw [if_neg hl] at h
        have hq := Option.some.inj h
        rw [← hq]
        exact ⟨rfl, rfl⟩

/-- Helper: for a non-noise record, the matrix and noise buffer of a
successful step are those left by the one-shot build. -/
theorem dream_step_nonnoise_dmtx {α δ σ τ : Type} (cfg : RtCfg) (ps : RtPs α δ σ τ)
    (st : RtState α δ σ τ) (r : RtRec α τ)
    (p : RtState α δ σ τ × Option (List (RtRec α τ)))
    (hn : r.isNoise = false)
    (hst : process_spiral_dream_step cfg ps st r = some p) :
    p.1.dmtx = (noiseBuild ps { st with baseTrj := updBase st.baseTrj r.baseTrjRet }).dmtx ∧
    p.1.noiseGroup =
      (noiseBuild ps { st with baseTrj := updBase st.baseTrj r.baseTrjRet }).noiseGroup := by
  by_cases hp : r.isPhaseCorr = true
  · simp only [process_spiral_dream_step, hn, hp, Bool.false_eq_true, if_false, if_pos rfl] at hst
    have hq := Option.some.inj hst
    rw [← hq]
    exact ⟨rfl, rfl⟩
  · by_cases hd : r.isDummy = true
    · simp only [process_spiral_dream_step, hn, hp, hd, Bool.false_eq_true, if_false,
        if_pos rfl] at hst
      have hq := Option.some.inj hst
      rw [← hq]
      exact ⟨rfl, rfl⟩
    · by_cases hc : r.isParaCalib = true
      · simp only [process_spiral_dream_step, hn, hp, hd, hc, Bool.false_eq_true, if_false,
          if_pos rfl] at hst
        by_cases hl : r.lastInSlice = true
        · rw [if_pos hl] at hst
          have hq := Option.some.inj hst
          rw [← hq]
          exact ⟨rfl, rfl⟩
        · rw [if_neg hl] at hst
          have hq := Option.some.inj hst
          rw [← hq]
          exact ⟨rfl, rfl⟩
      · have hn' : r.isNoise = false := hn
        have hp' : r.isPhaseCorr = false := by
          cases hh : r.isPhaseCorr
          · rfl
          · exact absurd hh hp
        have hd' : r.isDummy = false := by
          cases hh : r.isDummy
          · rfl
          · exact absurd hh hd
        have hc' : r.isParaCalib = false := by
          cases hh : r.isParaCalib
          · rfl
          · exact absurd hh hc
        rw [dream_step_imaging_eq cfg ps st r hn' hp' hd' hc'] at hst
        exact imagingPhase_preserves_noise cfg ps _ r p hst

/-- Helper: a set decorrelation matrix disables the build. -/
theorem noiseBuild_of_some {α δ σ τ : Type} (ps : RtPs α δ σ τ)
    (st : RtState α δ σ τ) (d : δ) (hd : st.dmtx = some d) :
    noiseBuild ps st = st := by
  unfold noiseBuild
  rw [if_neg]
  simp [hd]

/-- Helper: one successful spiral-dream step preserves a set matrix. -/
theorem dream_step_dmtx_mono {α δ σ τ : Type} (cfg : RtCfg) (ps : RtPs α δ σ τ)
    (st : RtState α δ σ τ) (r : RtRec α τ)
    (p : RtState α δ σ τ × Option (List (RtRec α τ))) (d : δ)
    (hd : st.dmtx = some d)
    (hst : process_spiral_dream_step cfg ps st r = some p) :
    p.1.dmtx = some d := by
  by_cases hr : r.isNoise = true
  · simp only [process_spiral_dream_step, hr, if_pos rfl] at hst
    have hq := Option.some.inj hst
    rw [← hq]
    exact hd
  · have hn : r.isNoise = false := by
      cases hh : r.isNoise
      · rfl
      · exact absurd hh hr
    have h := (dream_step_nonnoise_dmtx cfg ps st r p hn hst).1
    rw [h, noiseBuild_of_some ps { st with baseTrj := updBase st.baseTrj r.baseTrjRet } d hd]
    exact hd

/-- Helper: a set matrix survives folding the spiral-dream router over any
continuation of the stream. -/
theorem runDreamFrom_dmtx_mono {α δ σ τ : Type} (cfg : RtCfg) (ps : RtPs α δ σ τ) (d : δ) :
    ∀ (rs : List (RtRec α τ)) (st st' : RtState α δ σ τ), st.dmtx = some d →
      runDreamFrom cfg ps st rs = some st' → st'.dmtx = some d
  | [], st, st', hd, hrun => by
    have := Option.some.inj hrun
    rw [← this]
    exact hd
  | r :: rest, st, st', hd, hrun => by
    unfold runDreamFrom at hrun
    cases hst : process_spiral_dream_step cfg ps st r with
    | none => rw [hst] at hrun; exact absurd hrun (by simp)
    | some p =>
      rw [hst] at hrun
      exact runDreamFrom_dmtx_mono cfg ps d rest p.1 st'
        (dream_step_dmtx_mono cfg ps st r p d hd hst) hrun

/-- Helper: for a non-noise record, the matrix and noise buffer after a pics
step are those left by the one-shot build. -/
theorem pics_step_nonnoise_dmtx {α δ σ τ : Type} (ps : RtPs α δ σ τ)
    (st : PicsState α δ σ τ) (r : RtRec α τ) (hn : r.isNoise = false) :
    (process_step_pics ps st r).1.dmtx = (picsNoiseBuild ps st).dmtx ∧
    (process_step_pics ps st r).1.noiseGroup = (picsNoiseBuild ps st).noiseGroup := by
  unfold process_step_pics
  simp only [hn, Bool.false_eq_true, if_false]
  by_cases hp : r.isPhaseCorr = true
  · simp only [hp, if_pos rfl]
    exact ⟨rfl, rfl⟩
  · by_cases hc : r.isParaCalib = true
    · simp only [hp, hc, Bool.false_eq_true, if_false, if_pos rfl]
      exact ⟨rfl, rfl⟩
    · by_cases hl : (r.lastInSlice || r.lastInRep) = true
      · simp only [hp, hc, Bool.false_eq_true, if_false, hl, if_pos rfl]
        by_cases hs : ((picsNoiseBuild ps st).sensmaps r.slice).isNone = true
        · rw [if_pos hs]
          exact ⟨rfl, rfl⟩
        · rw [if_neg hs]
          exact ⟨rfl, rfl⟩
      · simp only [hp, hc, Bool.false_eq_true, if_false, hl]
        refine ⟨?_, ?_⟩ <;> first | rfl | trivial

/-- Helper: a set matrix disables the pics build. -/
theorem picsNoiseBuild_of_some {α δ σ τ : Type} (ps : RtPs α δ σ τ)
    (st : PicsState α δ σ τ) (d : δ) (hd : st.dmtx = some d) :
    picsNoiseBuild ps st = st := by
  unfold picsNoiseBuild
  rw [if_neg]
  simp [hd]

/-- Helper: one pics step preserves a set matrix. -/
theorem pics_step_dmtx_mono {α δ σ τ : Type} (ps : RtPs α δ σ τ)
    (st : PicsState α δ σ τ) (r : RtRec α τ) (d : δ) (hd : st.dmtx = some d) :
    (process_step_pics ps st r).1.dmtx = some d := by
  by_cases hr : r.isNoise = true
  · unfold process_step_pics
    simp [hr, hd]
  · have hn : r.isNoise = false := by
      cases hh : r.isNoise
      · rfl
      · exact absurd hh hr
    rw [(pics_step_nonnoise_dmtx ps st r hn).1, picsNoiseBuild_of_some ps st d hd]
    exact hd

/-- Helper: a set matrix survives folding the pics router over any stream. -/
theorem runPicsFrom_dmtx_mono {α δ σ τ : Type} (ps : RtPs α δ σ τ) (d : δ) :
    ∀ (rs : List (RtRec α τ)) (st : PicsState α δ σ τ), st.dmtx = some d →
      (runPicsFrom ps st rs).dmtx = some d
  | [], _, hd => hd
  | r :: rest, st, hd =>
    runPicsFrom_dmtx_mono ps d rest (process_step_pics ps st r).1
      (pics_step_dmtx_mono ps st r d hd)

/-- Claim C3 (amended): during one stream the decorrelation matrix is built
at most once, from the concatenation of the noise records buffered before
the first non-noise record; in the spiral-dream pipeline the noise buffer is
cleared immediately after the build, while in the Cartesian pics pipeline
the buffer is left in place (the build still cannot refire because the
matrix is no longer None); in both pipelines a noise record itself is only
buffered, and once the matrix is non-None it is never recomputed for the
remainder of the stream, whatever records arrive later. -/
theorem c3_noise_model_once {α δ σ τ : Type} (cfg : RtCfg) (ps : RtPs α δ σ τ) :
    (∀ (st : RtState α δ σ τ) (r : RtRec α τ), r.isNoise = true →
      process_spiral_dream_step cfg ps st r =
        some ({ st with
          baseTrj := updBase st.baseTrj r.baseTrjRet,
          noiseGroup := st.noiseGroup ++ [r] }, none)) ∧
    (∀ (st : RtState α δ σ τ) (r : RtRec α τ) p, r.isNoise = false →
      st.dmtx = none → st.noiseGroup ≠ [] →
      process_spiral_dream_step cfg ps st r = some p →
      p.1.dmtx = some (ps.calcPrewhitening (concatData st.noiseGroup)) ∧
      p.1.noiseGroup = []) ∧
    (∀ (rs : List (RtRec α τ)) (st st' : RtState α δ σ τ) (d : δ), st.dmtx = some d →
      runDreamFrom cfg ps st rs = some st' → st'.dmtx = some d) ∧
    (∀ (st : PicsState α δ σ τ) (r : RtRec α τ), r.isNoise = false →
      st.dmtx = none → st.noiseGroup ≠ [] →
      (process_step_pics ps st r).1.dmtx =
        some (ps.calcPrewhitening (concatData st.noiseGroup)) ∧
      (process_step_pics ps st r).1.noiseGroup = st.noiseGroup) ∧
    (∀ (rs : List (RtRec α τ)) (st : PicsState α δ σ τ) (d : δ), st.dmtx = some d →
      (runPicsFrom ps st rs).dmtx = some d) := by
  refine ⟨?_, ?_, ?_, ?_, ?_⟩
  · intro st r hr
    simp [process_spiral_dream_step, hr]
  · intro st r p hn hdm hng hst
    have h := dream_step_nonnoise_dmtx cfg ps st r p hn hst
    set stu : RtState α δ σ τ := { st with baseTrj := updBase st.baseTrj r.baseTrjRet }
      with hstu
    have hbuild : (!stu.noiseGroup.isEmpty && stu.dmtx.isNone) = true := by
      show (!st.noiseGroup.isEmpty && st.dmtx.isNone) = true
      simp [hdm, hng]
    constructor
    · rw [h.1]
      show (noiseBuild ps stu).dmtx = _
      unfold noiseBuild
      rw [if_pos hbuild]
    · rw [h.2]
      show (noiseBuild ps stu).noiseGroup = _
      unfold noiseBuild
      rw [if_pos hbuild]
  · intro rs st st' d hd hrun
    exact runDreamFrom_dmtx_mono cfg ps d rs st st' hd hrun
  · intro st r hn hdm hng
    have hbuild : (!st.noiseGroup.isEmpty && st.dmtx.isNone) = true := by
      simp [hdm, hng]
    have h := pics_step_nonnoise_dmtx ps st r hn
    rw [h.1, h.2]
    unfold picsNoiseBuild
    rw [if_pos hbuild]
    exact ⟨rfl, rfl⟩
  · intro rs st d hd
    exact runPicsFrom_dmtx_mono ps d rs st hd

/-- Witness for claim C3: a noise record then an imaging record through the
spiral-dream router build the matrix once and clear the buffer. -/
theorem c3_noise_model_once_witness :
    process_spiral_dream_step cfg1 (trivPs ℚ) (emptyRtState ℚ Unit Unit Unit) recNoiseQ =
      some ({ emptyRtState ℚ Unit Unit Unit with
        baseTrj := updBase (emptyRtState ℚ Unit Unit Unit).baseTrj recNoiseQ.baseTrjRet,
        noiseGroup := (emptyRtState ℚ Unit Unit Unit).noiseGroup ++ [recNoiseQ] },
        none) ∧
    (process_spiral_dream_step cfg1 (trivPs ℚ)
        { emptyRtState ℚ Unit Unit Unit with noiseGroup := [recNoiseQ] } recImgQ).elim False
      (fun p => p.1.dmtx = some ((trivPs ℚ).calcPrewhitening
          (concatData [recNoiseQ])) ∧ p.1.noiseGroup = []) := by
  constructor
  · exact (c3_noise_model_once cfg1 (trivPs ℚ)).1 (emptyRtState ℚ Unit Unit Unit) recNoiseQ rfl
  · obtain ⟨p, hp⟩ := Option.isSome_iff_exists.mp
      (by rfl : (process_spiral_dream_step cfg1 (trivPs ℚ)
        { emptyRtState ℚ Unit Unit Unit with noiseGroup := [recNoiseQ] } recImgQ).isSome = true)
    rw [hp]
    exact (c3_noise_model_once cfg1 (trivPs ℚ)).2.1
      { emptyRtState ℚ Unit Unit Unit with noiseGroup := [recNoiseQ] } recImgQ p
      rfl rfl (by simp) hp

/-- Counterexample to claim C3 as stated: in the pics pipeline the noise
buffer is not cleared after the build; a noise record followed by an imaging
record leaves the matrix built and one record still in the buffer. -/
theorem c3_noise_model_once_counterexample :
    ((runPicsFrom (trivPs ℚ) (emptyPicsState ℚ Unit Unit Unit)
      [recNoiseQ, recImgQ]).dmtx).isSome = true ∧
    (runPicsFrom (trivPs ℚ) (emptyPicsState ℚ Unit Unit Unit)
      [recNoiseQ, recImgQ]).noiseGroup.length = 1 := by
  exact ⟨rfl, rfl⟩

/-! ## Claim C1: group completion emits exactly once and clears the buffer -/

/-- Claim C1: routing an imaging record (one that is not noise,
phase-correction, dummy or calibration) through the spiral-dream router
emits a completed group exactly when the record carries the last-in-slice or
last-in-repetition flag; the emitted group is exactly the segment-updated
accumulation buffer of the record's (contrast, slice), immediately
afterwards that buffer is empty (so no group can be emitted twice), and no
other (contrast, slice) buffer is touched.  Without a completion flag
nothing is emitted and the buffer keeps exactly the segment-updated
accumulation. -/
theorem c1_group_completion {α δ σ τ : Type} (cfg : RtCfg) (ps : RtPs α δ σ τ)
    (st : RtState α δ σ τ) (r : RtRec α τ)
    (p : RtState α δ σ τ × Option (List (RtRec α τ)))
    (hn : r.isNoise = false) (hp : r.isPhaseCorr = false)
    (hd : r.isDummy = false) (hc : r.isParaCalib = false)
    (hst : process_spiral_dream_step cfg ps st r = some p) :
    ((r.lastInSlice || r.lastInRep) = true →
      p.2 = (segGroupUpdate cfg ps (st.acqGroup r.contrast r.slice) st.predTrj st.shiftV
          (updBase st.baseTrj r.baseTrjRet) r).map (fun x => x.1) ∧
      p.1.acqGroup r.contrast r.slice = []) ∧
    ((r.lastInSlice || r.lastInRep) = false →
      p.2 = none ∧
      some (p.1.acqGroup r.contrast r.slice) =
        (segGroupUpdate cfg ps (st.acqGroup r.contrast r.slice) st.predTrj st.shiftV
          (updBase st.baseTrj r.baseTrjRet) r).map (fun x => x.1)) ∧
    (∀ c s, ¬(c = r.contrast ∧ s = r.slice) → p.1.acqGroup c s = st.acqGroup c s) := by
  rw [dream_step_imaging_eq cfg ps st r hn hp hd hc] at hst
  set stb := noiseBuild ps { st with baseTrj := updBase st.baseTrj r.baseTrjRet } with hstb
  have hag : stb.acqGroup = st.acqGroup := (noiseBuild_fields ps _).2.1
  have hpt : stb.predTrj = st.predTrj := (noiseBuild_fields ps _).2.2.1
  have hsv : stb.shiftV = st.shiftV := (noiseBuild_fields ps _).2.2.2.1
  have hbt : stb.baseTrj = updBase st.baseTrj r.baseTrjRet := (noiseBuild_fields ps _).2.2.2.2.1
  unfold imagingPhase at hst
  cases hsf : sensFill cfg.nSlc stb.sensmaps with
  | none => rw [hsf] at hst; exact absurd hst (by simp)
  | some sm =>
    rw [hsf] at hst
    simp only [Option.some_bind] at hst
    cases hsg : segGroupUpdate cfg ps (stb.acqGroup r.contrast r.slice)
        stb.predTrj stb.shiftV stb.baseTrj r with
    | none => rw [hsg] at hst; exact absurd hst (by simp)
    | some gps =>
      rw [hsg] at hst
      simp only [Option.some_bind] at hst
      have hsg' : segGroupUpdate cfg ps (st.acqGroup r.contrast r.slice) st.predTrj st.shiftV
          (updBase st.baseTrj r.baseTrjRet) r = some gps := by
        rw [← hag, ← hpt, ← hsv, ← hbt]
        exact hsg
      refine ⟨?_, ?_, ?_⟩
      · intro hl
        rw [if_pos hl] at hst
        have hq := Option.some.inj hst
        rw [← hq]
        constructor
        · rw [hsg']
          rfl
        · show (if r.contrast = r.contrast ∧ r.slice = r.slice then []
            else stb.acqGroup r.contrast r.slice) = []
          rw [if_pos ⟨rfl, rfl⟩]
      · intro hl
        rw [if_neg (by simp [hl])] at hst
        have hq := Option.some.inj hst
        rw [← hq]
        constructor
        · rfl
        · show some (if r.contrast = r.contrast ∧ r.slice = r.slice then gps.1
            else stb.acqGroup r.contrast r.slice) = _
          rw [if_pos ⟨rfl, rfl⟩, hsg']
          rfl
      · intro c s hcs
        by_cases hl : (r.lastInSlice || r.lastInRep) = true
        · rw [if_pos hl] at hst
          have hq := Option.some.inj hst
          rw [← hq]
          show (if c = r.contrast ∧ s = r.slice then [] else stb.acqGroup c s) = st.acqGroup c s
          rw [if_neg hcs, hag]
        · rw [if_neg hl] at hst
          have hq := Option.some.inj hst
          rw [← hq]
          show (if c = r.contrast ∧ s = r.slice then gps.1 else stb.acqGroup c s) = st.acqGroup c s
          rw [if_neg hcs, hag]

/-- Witness for claim C1: a single last-in-slice segment-0 record through
the empty router emits exactly the one-record group and leaves the buffer
empty, while the same record without the flag emits nothing. -/
theorem c1_group_completion_witness :
    ((process_spiral_dream_step cfg1 (trivPs ℚ) (emptyRtState ℚ Unit Unit Unit) recLastQ).elim
      False (fun p =>
        p.2 = (segGroupUpdate cfg1 (trivPs ℚ) [] none none none recLastQ).map (fun x => x.1) ∧
        p.1.acqGroup 0 0 = [])) ∧
    ((process_spiral_dream_step cfg1 (trivPs ℚ) (emptyRtState ℚ Unit Unit Unit) recImgQ).elim
      False (fun p => p.2 = none)) := by
  constructor
  · obtain ⟨p, hp⟩ := Option.isSome_iff_exists.mp
      (by rfl : (process_spiral_dream_step cfg1 (trivPs ℚ)
        (emptyRtState ℚ Unit Unit Unit) recLastQ).isSome = true)
    rw [hp]
    have h := (c1_group_completion cfg1 (trivPs ℚ) (emptyRtState ℚ Unit Unit Unit)
      recLastQ p rfl rfl rfl rfl hp).1 rfl
    exact ⟨h.1, h.2⟩
  · obtain ⟨p, hp⟩ := Option.isSome_iff_exists.mp
      (by rfl : (process_spiral_dream_step cfg1 (trivPs ℚ)
        (emptyRtState ℚ Unit Unit Unit) recImgQ).isSome = true)
    rw [hp]
    have h := (c1_group_completion cfg1 (trivPs ℚ) (emptyRtState ℚ Unit Unit Unit)
      recImgQ p rfl rfl rfl rfl hp).2.1 rfl
    exact h.1

/-! ## Claim C4: the in-place segment write -/

/-- Helper: updating the last element of a non-empty list keeps everything
but the last element. -/
theorem updateLast_eq {β : Type} (f : β → β) :
    ∀ (l : List β) (e : β), l.getLast? = some e →
      updateLast f l = l.dropLast ++ [f e]
  | [], e, h => by simp at h
  | [a], e, h => by
    have ha : a = e := by simpa using h
    subst ha
    simp [updateLast]
  | a :: b :: t, e, h => by
    have h' : (b :: t).getLast? = some e := by
      rwa [List.getLast?_cons_cons] at h
    have hrec := updateLast_eq f (b :: t) e h'
    simp only [updateLast, hrec]
    simp

/-- Claim C4 (amended): for every imaging record with segment index s such
that 0 < s < nSegments - 1 and no completion flag, a successful routing
writes the record's channels-by-samples payload into the most recently
appended group entry's data at columns [s * numSamples, (s+1) * numSamples)
in the same channel rows, leaves every other column of that entry and all
earlier entries of the group unchanged, and emits nothing.  (On the final
segment s = nSegments - 1 the write is additionally followed by the
FOV-shift reapplication, which rescales all columns of that entry, see the
counterexample.) -/
theorem c4_segment_write_frame {α δ σ τ : Type} (cfg : RtCfg) (ps : RtPs α δ σ τ)
    (st : RtState α δ σ τ) (r : RtRec α τ) (e : RtRec α τ)
    (p : RtState α δ σ τ × Option (List (RtRec α τ)))
    (hn : r.isNoise = false) (hp : r.isPhaseCorr = false)
    (hd : r.isDummy = false) (hc : r.isParaCalib = false)
    (hseg0 : r.segment ≠ 0) (hsegf : r.segment ≠ cfg.nSegments - 1)
    (hlast : (r.lastInSlice || r.lastInRep) = false)
    (hgl : (st.acqGroup r.contrast r.slice).getLast? = some e)
    (hst : process_spiral_dream_step cfg ps st r = some p) :
    p.1.acqGroup r.contrast r.slice =
      (st.acqGroup r.contrast r.slice).dropLast ++
        [{ e with data := fun c j =>
            if r.segment * r.numSamples ≤ j ∧ j < (r.segment + 1) * r.numSamples then
              r.data c (j - r.segment * r.numSamples)
            else e.data c j }] ∧
    p.2 = none := by
  rw [dream_step_imaging_eq cfg ps st r hn hp hd hc] at hst
  set stb := noiseBuild ps { st with baseTrj := updBase st.baseTrj r.baseTrjRet } with hstb
  have hag : stb.acqGroup = st.acqGroup := (noiseBuild_fields ps _).2.1
  unfold imagingPhase at hst
  cases hsf : sensFill cfg.nSlc stb.sensmaps with
  | none => rw [hsf] at hst; exact absurd hst (by simp)
  | some sm =>
    rw [hsf] at hst
    simp only [Option.some_bind] at hst
    have hsgb : segGroupUpdate cfg ps (stb.acqGroup r.contrast r.slice)
        stb.predTrj stb.shiftV stb.baseTrj r =
        some (updateLast (segWrite r) (stb.acqGroup r.contrast r.slice),
          stb.predTrj, stb.shiftV) := by
      rw [hag]
      cases hg : st.acqGroup r.contrast r.slice with
      | nil =>
        rw [hg] at hgl
        simp at hgl
      | cons a as =>
        simp [segGroupUpdate, hseg0, hsegf]
    rw [hsgb] at hst
    simp only [Option.some_bind] at hst
    rw [if_neg (by simp [hlast])] at hst
    have hq := Option.some.inj hst
    rw [← hq]
    constructor
    · show (if r.contrast = r.contrast ∧ r.slice = r.slice then
        updateLast (segWrite r) (stb.acqGroup r.contrast r.slice)
        else stb.acqGroup r.contrast r.slice) = _
      rw [if_pos ⟨rfl, rfl⟩, hag, updateLast_eq (segWrite r) _ e hgl]
      rfl
    · rfl

/-- Witness for claim C4: a segment-1 record of a three-segment readout
lands in columns [1, 2) of the buffered entry; earlier columns keep the
previous data and nothing is emitted. -/
theorem c4_segment_write_frame_witness :
    (process_spiral_dream_step cfg3 (trivPs ℚ) stBuf1
        { recImgQ with segment := 1, data := fun _ _ => 5 }).elim False (fun p =>
      p.1.acqGroup 0 0 = [recImgQ].dropLast ++
        [{ recImgQ with data := fun c j =>
            if 1 * 1 ≤ j ∧ j < (1 + 1) * 1 then
              (fun _ _ => (5 : ℚ)) c (j - 1 * 1)
            else recImgQ.data c j }] ∧
      p.2 = none) := by
  obtain ⟨p, hp⟩ := Option.isSome_iff_exists.mp
    (by rfl : (process_spiral_dream_step cfg3 (trivPs ℚ) stBuf1
      { recImgQ with segment := 1, data := fun _ _ => 5 }).isSome = true)
  rw [hp]
  exact c4_segment_write_frame cfg3 (trivPs ℚ) stBuf1
    { recImgQ with segment := 1, data := fun _ _ => 5 } recImgQ p
    rfl rfl rfl rfl (by decide) (by decide) rfl rfl hp

/-- Counterexample to claim C4 as stated: on the final segment the write is
followed by the FOV-shift reapplication.  Routing a segment-0 record (one
sample of value 1, predicted kx 1/2, unit x position) and then the final
segment-1 record through the spiral-dream router multiplies column 0 of the
entry, which lies outside the claimed write range [1, 2), by
exp(-i pi) = -1: the column changes from 1 to -1. -/
theorem c4_segment_write_frame_counterexample :
    (((process_spiral_dream_step cfgC4 psReapply (emptyRtState ℂ Unit Unit (ℕ → ℕ → ℚ))
        recSeg0C).bind (fun q => process_spiral_dream_step cfgC4 psReapply q.1 recSeg1C)).elim
      False (fun p => (p.1.acqGroup 0 0).head?.elim False (fun e => e.data 0 0 = -1))) ∧
    recSeg0C.data 0 0 = 1 ∧ ((-1 : ℂ) ≠ 1) ∧ 0 < recSeg1C.segment ∧
    ¬ (recSeg1C.segment * recSeg1C.numSamples ≤ 0 ∧
        0 < (recSeg1C.segment + 1) * recSeg1C.numSamples ∧
        recSeg1C.segment * recSeg1C.numSamples ≤ 0) := by
  refine ⟨?_, rfl, by norm_num, by decide, by decide⟩
  show (1 : ℂ) * Complex.exp (-(2 * (Real.pi : ℂ) *
      ((∑ ax ∈ Finset.range 3, (recSeg0C.traj 0 ax - 0) * recShift cfgC4 recSeg0C ax : ℚ) : ℂ) *
      Complex.I)) = -1
  rw [show (∑ ax ∈ Finset.range 3, (recSeg0C.traj 0 ax - 0) * recShift cfgC4 recSeg0C ax : ℚ)
    = 1/2 from by
      simp [Finset.sum_range_succ, recSeg0C, recShift, pcs_to_gcs, rotmat_of, cfgC4,
        e0q, e1q, e2q]]
  rw [show ((1/2 : ℚ) : ℂ) = 1/2 from by norm_num, one_mul]
  rw [show -(2 * (Real.pi : ℂ) * (1/2) * Complex.I) = -((Real.pi : ℂ) * Complex.I) from by ring]
  rw [Complex.exp_neg, Complex.exp_pi_mul_I]
  norm_num

/-! ## Claim C5: identity impulse response in trajectory prediction -/

/-- With matching sample counts and the identity impulse response, the
frequency-domain prediction pipeline of grad_pred returns the input
gradient unchanged on its meaningful samples. -/
theorem grad_pred_identity (n : ℕ) (hn : n ≠ 0) (grad : ℕ → ℕ → ℚ) (d t : ℕ)
    (hd : d < 3) (ht : t < n) :
    grad_pred n n grad identity_girf (d + 1) t = ((grad d t : ℚ) : ℂ) := by
  have hrs : grad_pred_resize n n grad identity_girf =
      { nfft := n, grad := grad, girf := identity_girf, warned := false } := by
    unfold grad_pred_resize
    rw [if_neg (lt_irrefl n), if_neg (lt_irrefl n)]
  simp only [grad_pred, hrs]
  show npFftshift n (npIFFT n (npIfftshift n (fun t2 => ∑ i ∈ Finset.range 3,
      npFftshift n (npFFT n (npIfftshift n (fun u => ((grad i u : ℚ) : ℂ)))) t2 *
        identity_girf i (d + 1) t2))) t = ((grad d t : ℚ) : ℂ)
  have hmult : (fun t2 => ∑ i ∈ Finset.range 3,
      npFftshift n (npFFT n (npIfftshift n (fun u => ((grad i u : ℚ) : ℂ)))) t2 *
        identity_girf i (d + 1) t2) =
      fun t2 => npFftshift n (npFFT n (npIfftshift n (fun u => ((grad d u : ℚ) : ℂ)))) t2 := by
    funext t2
    rw [Finset.sum_eq_single d]
    · simp [identity_girf]
    · intro b _ hbd
      have hne : ¬(d + 1 = b + 1) := by omega
      simp [identity_girf, hne]
    · intro hdn
      exact absurd (Finset.mem_range.mpr hd) hdn
  rw [hmult]
  set g : ℕ → ℂ := fun u => ((grad d u : ℚ) : ℂ) with hg
  have hidx : (t + (n - n / 2)) % n < n := Nat.mod_lt _ (Nat.pos_of_ne_zero hn)
  show npIFFT n (npIfftshift n (fun t2 => npFftshift n (npFFT n (npIfftshift n g)) t2))
    ((t + (n - n / 2)) % n) = g t
  have hstep1 : npIFFT n (npIfftshift n (fun t2 => npFftshift n (npFFT n (npIfftshift n g)) t2))
      ((t + (n - n / 2)) % n) =
      npIFFT n (npFFT n (npIfftshift n g)) ((t + (n - n / 2)) % n) := by
    unfold npIFFT
    congr 1
    refine Finset.sum_congr rfl fun k hk => ?_
    have hk' : k < n := Finset.mem_range.mp hk
    have : npIfftshift n (fun t2 => npFftshift n (npFFT n (npIfftshift n g)) t2) k =
        npFFT n (npIfftshift n g) k := npIfftshift_npFftshift n _ k hk'
    rw [this]
  rw [hstep1, npIFFT_npFFT n hn _ _ hidx]
  exact npFftshift_npIfftshift n g t ht

/-- Applying an orthonormal 3-by-3 rotation and then its transpose (the
gcs-to-dcs round trip of calc_traj) returns the input row. -/
theorem rotmat_orth_cancel (R g : ℕ → ℕ → ℚ) (d u : ℕ) (hd : d < 3)
    (hR : ∀ d2, d2 < 3 → ∀ j2, j2 < 3 →
      (∑ i ∈ Finset.range 3, R i d2 * R i j2) = if d2 = j2 then 1 else 0) :
    (∑ i ∈ Finset.range 3, R i d * gcs_to_dcs g R i u) = g d u := by
  simp only [gcs_to_dcs]
  calc (∑ i ∈ Finset.range 3, R i d * ∑ jx ∈ Finset.range 3, R i jx * g jx u)
      = ∑ i ∈ Finset.range 3, ∑ jx ∈ Finset.range 3, R i d * (R i jx * g jx u) :=
        Finset.sum_congr rfl fun i _ => Finset.mul_sum _ _ _
    _ = ∑ jx ∈ Finset.range 3, ∑ i ∈ Finset.range 3, R i d * (R i jx * g jx u) :=
        Finset.sum_comm
    _ = ∑ jx ∈ Finset.range 3, (∑ i ∈ Finset.range 3, R i d * R i jx) * g jx u := by
        refine Finset.sum_congr rfl fun jx _ => ?_
        rw [Finset.sum_mul]
        exact Finset.sum_congr rfl fun i _ => (mul_assoc _ _ _).symm
    _ = ∑ jx ∈ Finset.range 3, (if d = jx then 1 else 0) * g jx u := by
        refine Finset.sum_congr rfl fun jx hjx => ?_
        rw [hR d hd jx (Finset.mem_range.mp hjx)]
    _ = g d u := by
        simp only [ite_mul, one_mul, zero_mul]
        rw [Finset.sum_ite_eq]
        rw [if_pos (Finset.mem_range.mpr hd)]

/-- np.interp applied to two samplings of the same coordinates agrees when
the sampled values agree pointwise. -/
theorem np_interp_map_congr {V : Type} [AddCommGroup V] [Module ℚ V] (x : ℚ)
    (l : List ℕ) (f g2 : ℕ → ℚ × V) (h : ∀ t ∈ l, f t = g2 t) :
    np_interp x (l.map f) = np_interp x (l.map g2) := by
  rw [List.map_congr_left h]

/-- Claim C5 (amended): if the impulse response given to trajectory
prediction is the identity filter (unit response and zero delay on every
axis), the stored gradient carries all three spatial axes (trajDims = 3)
and the direction cosines are orthonormal, then for every nominal gradient
waveform calc_traj returns a predicted trajectory equal to the base
(uncorrected) trajectory on all three axes.  (For a two-dimensional stored
gradient the predicted z-axis is instead overwritten with the Cartesian
partition offset, see the counterexample.) -/
theorem c5_identity_girf_prediction (acq : ProtAcq) (hdr : ProtHdr) (ncol : ℕ)
    (hdims : acq.trajDims = 3)
    (hR : ∀ d2, d2 < 3 → ∀ j2, j2 < 3 →
      (∑ i ∈ Finset.range 3, calc_rotmat acq i d2 * calc_rotmat acq i j2) =
        if d2 = j2 then 1 else 0)
    (j d : ℕ) (hd : d < 3) :
    (calc_traj (acq.trajSamples + 20) identity_girf acq hdr ncol).pred j d =
      (calc_traj (acq.trajSamples + 20) identity_girf acq hdr ncol).base j d := by
  simp only [calc_traj]
  refine np_interp_map_congr _ (List.range (acq.trajSamples + 20)) _ _ fun t ht => ?_
  have ht' : t < acq.trajSamples + 20 := List.mem_range.mp ht
  refine congrArg (Prod.mk _) ?_
  have hcond : ¬(acq.trajDims = 2 ∧ d = 2) := by
    rintro ⟨h2, _⟩
    rw [hdims] at h2
    exact absurd h2 (by norm_num)
  rw [if_neg hcond]
  have hsum : ∀ u ∈ Finset.range (t + 1),
      (dcs_to_gcs (fun d2 t2 => grad_pred (acq.trajSamples + 20) (acq.trajSamples + 20)
          (gcs_to_dcs (fun d3 t3 => if d3 < acq.trajDims then
              (if 10 ≤ t3 ∧ t3 < 10 + acq.trajSamples then acq.traj (t3 - 10) d3 else 0)
            else 0) (calc_rotmat acq)) identity_girf (d2 + 1) t2)
        (calc_rotmat acq) d u).re =
      (((if d < acq.trajDims then
          (if 10 ≤ u ∧ u < 10 + acq.trajSamples then acq.traj (u - 10) d else 0)
        else 0 : ℚ)) : ℝ) := by
    intro u hu
    have hu' : u < acq.trajSamples + 20 := by
      have := Finset.mem_range.mp hu
      omega
    simp only [dcs_to_gcs]
    have hgp : ∀ i ∈ Finset.range 3,
        ((calc_rotmat acq i d : ℚ) : ℂ) *
          grad_pred (acq.trajSamples + 20) (acq.trajSamples + 20)
            (gcs_to_dcs (fun d3 t3 => if d3 < acq.trajDims then
                (if 10 ≤ t3 ∧ t3 < 10 + acq.trajSamples then acq.traj (t3 - 10) d3 else 0)
              else 0) (calc_rotmat acq)) identity_girf (i + 1) u =
        ((calc_rotmat acq i d : ℚ) : ℂ) *
          ((gcs_to_dcs (fun d3 t3 => if d3 < acq.trajDims then
              (if 10 ≤ t3 ∧ t3 < 10 + acq.trajSamples then acq.traj (t3 - 10) d3 else 0)
            else 0) (calc_rotmat acq) i u : ℚ) : ℂ) := by
      intro i hi
      rw [grad_pred_identity _ (by omega) _ i u (Finset.mem_range.mp hi) hu']
    rw [Finset.sum_congr rfl hgp]
    have hq : (∑ i ∈ Finset.range 3, ((calc_rotmat acq i d : ℚ) : ℂ) *
        ((gcs_to_dcs (fun d3 t3 => if d3 < acq.trajDims then
            (if 10 ≤ t3 ∧ t3 < 10 + acq.trajSamples then acq.traj (t3 - 10) d3 else 0)
          else 0) (calc_rotmat acq) i u : ℚ) : ℂ)) =
        (((∑ i ∈ Finset.range 3, calc_rotmat acq i d *
          gcs_to_dcs (fun d3 t3 => if d3 < acq.trajDims then
              (if 10 ≤ t3 ∧ t3 < 10 + acq.trajSamples then acq.traj (t3 - 10) d3 else 0)
            else 0) (calc_rotmat acq) i u : ℚ)) : ℂ) := by
      push_cast
      rfl
    rw [hq, rotmat_orth_cancel (calc_rotmat acq) _ d u hd hR]
    exact Complex.ratCast_re _
  rw [Finset.sum_congr rfl hsum]
  push_cast
  ring

/-- Witness for claim C5: the plain three-dimensional acquisition with
identity direction cosines has predicted trajectory equal to the base
trajectory at the first sample. -/
theorem c5_identity_girf_prediction_witness :
    protBase.trajDims = 3 ∧
    (calc_traj (protBase.trajSamples + 20) identity_girf protBase hdrC5 1).pred 0 0 =
      (calc_traj (protBase.trajSamples + 20) identity_girf protBase hdrC5 1).base 0 0 :=
  ⟨rfl, c5_identity_girf_prediction protBase hdrC5 1 rfl (by
      intro d2 hd2 j2 hj2
      interval_cases d2 <;> interval_cases j2 <;>
        norm_num [calc_rotmat, rotmat_of, protBase, e0q, e1q, e2q, Finset.sum_range_succ])
    0 0 (by norm_num)⟩

/-- Counterexample to claim C5 as stated: for a two-dimensional stored
gradient (here the zero waveform at partition step 1 with matrix_z = 0)
the z-axis of the predicted trajectory is overwritten with the Cartesian
partition offset step2 - matrix_z / 2 = 1, while the base z-axis is the
integral of the missing z gradient, 0 -- even with the identity impulse
response the two trajectories differ. -/
theorem c5_identity_girf_prediction_counterexample :
    (calc_traj 21 identity_girf acqC5 hdrC5 1).pred 0 2 = 1 ∧
    (calc_traj 21 identity_girf acqC5 hdrC5 1).base 0 2 = 0 ∧
    ((1 : ℝ) ≠ 0) ∧ acqC5.trajDims = 2 := by
  refine ⟨?_, ?_, by norm_num, rfl⟩
  · simp only [calc_traj]
    refine np_interp_const _ 1 _ (by simp) ?_
    intro p hp
    simp only [List.mem_map] at hp
    obtain ⟨t2, ht2, hpe⟩ := hp
    rw [← hpe]
    dsimp only
    rw [if_pos ⟨rfl, trivial⟩]
    norm_num [acqC5, protBase, hdrC5, encIdx0]
  · simp only [calc_traj]
    refine np_interp_const _ 0 _ (by simp) ?_
    intro p hp
    simp only [List.mem_map] at hp
    obtain ⟨t2, ht2, hpe⟩ := hp
    rw [← hpe]
    dsimp only
    norm_num [acqC5, protBase]
